import Mathlib

/-!
Shallow embedding of the host-independent core of the glTF import/export
add-on (files under `src/addons/io_scene_gltf2/blender/`), centered on
`blender/imp/gltf2_blender_node.py` (virtual-node tree walk, armature/bone
creation, mesh-object caching and skinning) and on the untextured branch of
`blender/exp/gltf2_blender_gather_materials_specular.py`.

Conventions of the embedding:
* Python floats become exact rationals (`ℚ`); statements about floating-point
  tolerance become exact equalities.
* The host math library (`mathutils`) supplies vector/quaternion/matrix
  arithmetic; those operations are defined here following their documented
  semantics (`Quaternion @ Vector` = rotation sandwich, `Matrix @ Vector` =
  affine application).  The host's Euclidean `Vector.length` is kept abstract
  (a field of the `Host` record) because it lives outside the repository.
* Python list indexing (`l[i]`, which wraps negative indices and raises
  `IndexError` out of range) is `pyGet`.
* Host mutation (`bpy.data.objects.new`, editbone creation, ...) becomes
  explicit state passing through an `ImpState` record; a raised Python
  exception is an `Option PyErr` paired with the state at raise time
  (mutations performed before the raise persist, as in Python).
* The unbounded Python recursion of `create_vnode` / the bone `visit` walk
  becomes fuel-indexed recursion; theorems show the fuel never runs out on
  acyclic inputs.
-/

namespace GltfCore


/-- 3-component vector with rational coordinates (mathutils `Vector`). -/
structure Vec3 where
  x : ℚ
  y : ℚ
  z : ℚ

deriving DecidableEq, Repr

namespace Vec3

def add (a b : Vec3) : Vec3 := ⟨a.x + b.x, a.y + b.y, a.z + b.z⟩

def sub (a b : Vec3) : Vec3 := ⟨a.x - b.x, a.y - b.y, a.z - b.z⟩

def smul (c : ℚ) (a : Vec3) : Vec3 := ⟨c * a.x, c * a.y, c * a.z⟩

/-- Componentwise product: mathutils scale application `s * p`. -/
def hadamard (a b : Vec3) : Vec3 := ⟨a.x * b.x, a.y * b.y, a.z * b.z⟩

def zero : Vec3 := ⟨0, 0, 0⟩

def one : Vec3 := ⟨1, 1, 1⟩

instance : Add Vec3 := ⟨Vec3.add⟩

instance : Sub Vec3 := ⟨Vec3.sub⟩

end Vec3


/-- Quaternion with rational components (mathutils `Quaternion`, order w x y z). -/
structure Quat where
  w : ℚ
  x : ℚ
  y : ℚ
  z : ℚ

deriving DecidableEq, Repr

namespace Quat

/-- Hamilton product (mathutils `Quaternion.__matmul__` on quaternions). -/
def mul (a b : Quat) : Quat :=
  ⟨a.w * b.w - a.x * b.x - a.y * b.y - a.z * b.z,
   a.w * b.x + a.x * b.w + a.y * b.z - a.z * b.y,
   a.w * b.y - a.x * b.z + a.y * b.w + a.z * b.x,
   a.w * b.z + a.x * b.y - a.y * b.x + a.z * b.w⟩

/-- mathutils `Quaternion.conjugated()`. -/
def conjugated (a : Quat) : Quat := ⟨a.w, -a.x, -a.y, -a.z⟩

/-- Squared norm `w² + x² + y² + z²`; a rotation quaternion has `normSq = 1`. -/
def normSq (a : Quat) : ℚ := a.w * a.w + a.x * a.x + a.y * a.y + a.z * a.z

def idq : Quat := ⟨1, 0, 0, 0⟩

/-- Embed a vector as a pure quaternion. -/
def ofVec (v : Vec3) : Quat := ⟨0, v.x, v.y, v.z⟩

/-- Vector part of a quaternion. -/
def vecPart (a : Quat) : Vec3 := ⟨a.x, a.y, a.z⟩

/-- mathutils `Quaternion @ Vector`: rotate `v` by `q` (sandwich `q v q*`,
exact for rotation quaternions). -/
def rotate (q : Quat) (v : Vec3) : Vec3 :=
  vecPart (mul (mul q (ofVec v)) (conjugated q))

end Quat


/-! ### Transform math

A TRS transform (translation, rotation, scale) acts on a point by scaling,
rotating, then translating — the composition order used by both glTF and the
host for `location` / `rotation_quaternion` / `scale` triples. -/

/-- A translation/rotation/scale triple as returned by `vnode.trs()`. -/
structure TRS where
  t : Vec3
  r : Quat
  s : Vec3

deriving DecidableEq, Repr

/-- Apply a TRS transform to a point: `t + r ⬝ (s * p)`. -/
def TRS.apply (m : TRS) (p : Vec3) : Vec3 :=
  m.t + Quat.rotate m.r (Vec3.hadamard m.s p)

/-! ### Pose computation of `create_bones`

`gltf2_blender_node.py`, lines 199–206:

    # BoneTRS = EditBone * PoseBone
    # Set PoseBone to make BoneTRS = vnode.trs.
    t, r, s = vnode.trs()
    et, er = vnode.editbone_trans, vnode.editbone_rot
    pose_bone.location = er.conjugated() @ (t - et)
    pose_bone.rotation_mode = 'QUATERNION'
    pose_bone.rotation_quaternion = er.conjugated() @ r
    pose_bone.scale = s
-/

/-- `pose_bone.location = er.conjugated() @ (t - et)`. -/
def pose_location (er : Quat) (t et : Vec3) : Vec3 :=
  Quat.rotate er.conjugated (t - et)

/-- `pose_bone.rotation_quaternion = er.conjugated() @ r`. -/
def pose_rotation (er r : Quat) : Quat :=
  Quat.mul er.conjugated r

/-- The edit-time rest transform of a bone: translation `editbone_trans`,
rotation `editbone_rot`, no scale (editbones carry none). -/
def editbone_rest (et : Vec3) (er : Quat) : TRS := ⟨et, er, Vec3.one⟩

/-- The pose transform assigned by the pose pass of `create_bones`. -/
def pose_trs (t et : Vec3) (er r : Quat) (s : Vec3) : TRS :=
  ⟨pose_location er t et, pose_rotation er r, s⟩

/-! ### `export_specular` untextured branch
(`gltf2_blender_gather_materials_specular.py`, lines 58–68). -/

/-- `luminance = lambda c: 0.3 * c[0] + 0.6 * c[1] + 0.1 * c[2]`. -/
def luminance (c : Vec3) : ℚ := 0.3 * c.x + 0.6 * c.y + 0.1 * c.z

/-- The `normalize` helper of `export_specular`: divide each channel by the
luminance unless the luminance is zero, in which case return `c` unchanged. -/
def normalize (c : Vec3) : Vec3 :=
  let l := luminance c
  if l = 0 then c else ⟨c.x / l, c.y / l, c.z / l⟩

/-- `tint_strength = (1 - specular_tint) + normalize(base_color) * specular_tint`
(componentwise, numpy broadcast of the scalar term). -/
def tint_strength (specular_tint : ℚ) (base_color : Vec3) : Vec3 :=
  Vec3.smul specular_tint (normalize base_color) +
    ⟨1 - specular_tint, 1 - specular_tint, 1 - specular_tint⟩

/-! ### Affine 4×4 matrices

`vnode.editbone_arma_mat` is a mathutils 4×4 matrix applied to 3-vectors
(`mat @ Vector((x, y, z))` treats the vector as `(x, y, z, 1)`).  Only the
affine part is visible to the code under study, so a matrix is a linear part
(three column vectors) plus a translation column. -/

/-- Affine matrix: columns of the linear part and a translation column. -/
structure Mat4 where
  colX : Vec3
  colY : Vec3
  colZ : Vec3
  transl : Vec3

deriving DecidableEq, Repr

/-- `mat @ Vector((x, y, z))` for an affine mathutils matrix. -/
def Mat4.applyPoint (m : Mat4) (v : Vec3) : Vec3 :=
  m.transl + (Vec3.smul v.x m.colX + Vec3.smul v.y m.colY + Vec3.smul v.z m.colZ)

/-- The linear part of a matrix applied to a direction vector. -/
def Mat4.applyDir (m : Mat4) (v : Vec3) : Vec3 :=
  Vec3.smul v.x m.colX + Vec3.smul v.y m.colY + Vec3.smul v.z m.colZ

/-! ### Python errors and list indexing -/

deriving instance DecidableEq for Except

/-- Python exceptions that the embedded code can raise. -/
inductive PyErr where
  /-- `IndexError`: list index out of range. -/
  | indexError : PyErr
  /-- `TypeError`: e.g. comparing `None` with an `int`. -/
  | typeError : PyErr

deriving DecidableEq, Repr

/-- Python list subscription `l[i]`: negative indices wrap once; anything
outside `[-len, len)` raises `IndexError`. -/
def pyGet {α : Type} (l : List α) (i : Int) : Except PyErr α :=
  let j : Int := if i < 0 then i + l.length else i
  if h : 0 ≤ j ∧ j < (l.length : Int) then
    .ok (l.get ⟨j.toNat, by omega⟩)
  else
    .error .indexError

/-! ### The glTF document (`gltf.data`)

Read-only input, pre-parsed.  Only the fields the studied code reads are
modelled. -/

/-- A glTF node descriptor (`gltf.data.nodes[i]`). -/
structure PyNode where
  /-- `pynode.mesh`: optional index into `gltf.data.meshes`. -/
  mesh : Option Int := none
  /-- `pynode.skin`: optional index into `gltf.data.skins`. -/
  skin : Option Int := none
  /-- `pynode.camera`: optional index into the camera array. -/
  camera : Option Int := none
  /-- The light index carried in `pynode.extensions` under
  `KHR_lights_punctual`. -/
  lightExt : Option Int := none
  /-- `pynode.weights`: optional morph-target weights. -/
  weights : Option (List ℚ) := none
  /-- `pynode.weight_animation`: whether some animation targets this node's
  morph weights. -/
  weight_animation : Bool := false

deriving DecidableEq, Repr

/-- A glTF mesh (`gltf.data.meshes[i]`).  `blender_name` (the per-mesh cache
dict of created host meshes) lives in the mutable state, keyed by mesh index. -/
structure PyMesh where
  /-- `pymesh.shapekey_names`: one optional name per morph target; the empty
  list is falsy in Python (`if not pymesh.shapekey_names`). -/
  shapekey_names : List (Option Nat) := []
  /-- `pymesh.weights`: mesh-level default morph weights. -/
  weights : List ℚ := []

deriving DecidableEq, Repr

/-- A glTF skin (`gltf.data.skins[i]`). -/
structure PySkin where
  /-- `pyskin.joints`: node indices of the skin's joints. -/
  joints : List Nat := []

deriving DecidableEq, Repr

/-- The pre-parsed glTF document (`gltf.data`). -/
structure GltfData where
  nodes : List PyNode := []
  meshes : List PyMesh := []
  skins : List PySkin := []

deriving DecidableEq, Repr

/-! ### Virtual nodes (`gltf.vnodes`)

Built by the (excluded) vnode builder before `create_vnode` runs.  Ids are
natural numbers: glTF node indices, plus fresh ids for synthesized nodes
(the dummy root and per-armature synthetics).  `gltf.vnodes` is a dictionary;
the embedding uses a total function, as the walk only ever looks up ids the
builder placed in it. -/

/-- `VNode.Object | VNode.Bone | VNode.DummyRoot`. -/
inductive VKind where
  | Object : VKind
  | Bone : VKind
  | DummyRoot : VKind

deriving DecidableEq, Repr

/-- A virtual node (class `VNode` of `gltf2_blender_vnode.py`), restricted to
the fields `gltf2_blender_node.py` reads. -/
structure VNode where
  type : VKind := .Object
  parent : Option Nat := none
  children : List Nat := []
  /-- Resolved local TRS, `vnode.trs()`. -/
  trs : TRS := ⟨Vec3.zero, Quat.idq, Vec3.one⟩
  is_arma : Bool := false
  /-- For Bone nodes: id of the owning armature vnode. -/
  bone_arma : Nat := 0
  /-- Index of the glTF node carrying this vnode's mesh reference, if any. -/
  mesh_node_idx : Option Nat := none
  camera_node_idx : Option Nat := none
  light_node_idx : Option Nat := none
  /-- For Bone nodes: armature-space editbone matrix. -/
  editbone_arma_mat : Mat4 := ⟨⟨1,0,0⟩, ⟨0,1,0⟩, ⟨0,0,1⟩, Vec3.zero⟩
  /-- For Bone nodes: translation part of `editbone_arma_mat`. -/
  editbone_trans : Vec3 := Vec3.zero
  /-- For Bone nodes: rotation part of `editbone_arma_mat`. -/
  editbone_rot : Quat := Quat.idq
  /-- For Bone nodes: chosen bone length. -/
  bone_length : ℚ := 1

deriving DecidableEq, Repr

/-- The vnode store `gltf.vnodes`. -/
def VStore : Type := Nat → VNode

/-- External collaborators: host math and the excluded materialization
helpers (`BlenderMesh` / `BlenderCamera` / `BlenderLight` `create`), which
live outside the modelled core (spec §6).  They are abstract total
functions; `vlen` is mathutils `Vector.length`. -/
structure Host where
  /-- mathutils `Vector.length` (Euclidean norm, computed by the host). -/
  vlen : Vec3 → ℚ

deriving Inhabited

/-! ### Import state

All host mutation performed by `BlenderNode` becomes explicit data.  Host
meshes created by `BlenderMesh.create` are identified by a counter (each call
yields a fresh name); host objects are recorded as `ObjRec` values. -/

/-- What `bpy.data.objects.new(name, data)` was given as `data`. -/
inductive ObjData where
  /-- A host mesh, identified by its (counter-based) name. -/
  | meshData (name : Nat) : ObjData
  /-- A camera datablock built from `pynode.camera`. -/
  | cameraData (idx : Option Int) : ObjData
  /-- A light datablock built from the `KHR_lights_punctual` index. -/
  | lightData (idx : Int) : ObjData
  /-- A fresh armature datablock. -/
  | armatureData : ObjData
  /-- `None` (an empty). -/
  | noData : ObjData

deriving DecidableEq, Repr

/-- A host object (`bpy.data.objects.new` result) with every field the code
writes on it. -/
structure ObjRec where
  /-- The vnode this object was created for. -/
  vid : Nat
  data : ObjData
  location : Vec3 := Vec3.zero
  rotation_quaternion : Quat := Quat.idq
  scale : Vec3 := Vec3.one
  /-- vnode id whose host object became `obj.parent` (for a bone parent,
  the armature's vnode id). -/
  parentVid : Option Nat := none
  /-- `obj.parent_type == 'BONE'`. -/
  parent_type_bone : Bool := false
  /-- the Bone vnode whose name became `obj.parent_bone`. -/
  parent_bone : Option Nat := none
  /-- `obj.empty_display_size`, written only for empties. -/
  empty_display_size : Option ℚ := none
  /-- Armature-modifier target (vnode id of the armature), from
  `setup_skinning`. -/
  armature_modifier : Option Nat := none
  /-- The `kb.value` writes of `set_morph_weights`, in order. -/
  morph_weight_values : List ℚ := []

deriving DecidableEq, Repr

/-- The cache key of `create_mesh_object` (`(pynode.skin,)` or
`(pynode.skin, tuple(pynode.weights or []))`). -/
inductive CacheKey where
  | skinOnly (skin : Option Int) : CacheKey
  | skinWeights (skin : Option Int) (ws : List ℚ) : CacheKey

deriving DecidableEq, Repr

/-- An editbone as written by the first pass of `create_bones`. -/
structure EditBoneRec where
  vid : Nat
  head : Vec3
  tail : Vec3
  /-- `editbone.length` (assigned after head/tail). -/
  length : ℚ
  /-- The vector passed to `editbone.align_roll`. -/
  align_roll_arg : Vec3
  /-- Parent editbone (vnode id), set by the second pass when the parent
  vnode is a Bone. -/
  parentBone : Option Nat := none

deriving DecidableEq, Repr

/-- A pose bone as written by the pose pass of `create_bones`. -/
structure PoseBoneRec where
  vid : Nat
  location : Vec3
  rotation_quaternion : Quat
  scale : Vec3

deriving DecidableEq, Repr

/-- All mutable import state threaded through the walk. -/
structure ImpState where
  /-- Order of `create_vnode` entries (`gltf.display_current_node` ticks). -/
  visited : List Nat := []
  /-- `vnode.blender_object` writes: vnode id ↦ index into `objects`, or
  `none` for the dummy root's explicit `None`. -/
  assignments : List (Nat × Option Nat) := []
  /-- Host objects, in creation order. -/
  objects : List ObjRec := []
  /-- `pymesh.blender_name` dicts, keyed by (mesh index, cache key); the
  value is the created host mesh's name. -/
  meshCache : List ((Int × CacheKey) × Nat) := []
  /-- Number of `BlenderMesh.create` calls so far; also the next fresh host
  mesh name. -/
  meshesCreated : Nat := 0
  editBones : List EditBoneRec := []
  poseBones : List PoseBoneRec := []

deriving DecidableEq, Repr

/-! ### `create_mesh_object` and helpers (source lines 212–277) -/

/-- Source lines 221–229: the cache key, or `none` when the mesh has
animated morph weights (then the cache is not used at all). -/
def cache_key_of (pymesh : PyMesh) (pynode : PyNode) : Option CacheKey :=
  if pymesh.shapekey_names = [] then
    some (.skinOnly pynode.skin)
  else if pynode.weight_animation = false then
    some (.skinWeights pynode.skin ((pynode.weights).getD []))
  else
    none

/-- Python `a or b` for an optional weight list (`None` and `[]` are falsy). -/
def py_or_weights (a : Option (List ℚ)) (b : List ℚ) : List ℚ :=
  match a with
  | some w => if w = [] then b else w
  | none => b

/-- The loop body of `set_morph_weights`: for `i, weight in
enumerate(weights)`, reads `pymesh.shapekey_names[i]` (which can raise) and
records `kb.value = weight` for the non-`None` entries. -/
def morph_weight_writes (shapekeys : List (Option Nat)) :
    List ℚ → Nat → Except PyErr (List ℚ)
  | [], _ => .ok []
  | w :: ws, i =>
    match pyGet shapekeys (Int.ofNat i) with
    | .error e => .error e
    | .ok sk =>
      match morph_weight_writes shapekeys ws (i + 1) with
      | .error e => .error e
      | .ok rest =>
        .ok (match sk with
             | some _ => w :: rest
             | none => rest)

/-- `set_morph_weights` (lines 250–265): chooses
`pynode.weights or pymesh.weights or []` and applies each weight to the
corresponding shape key. -/
def set_morph_weights (pymesh : PyMesh) (pynode : PyNode) : Except PyErr (List ℚ) :=
  morph_weight_writes pymesh.shapekey_names
    (py_or_weights pynode.weights pymesh.weights) 0

/-- `setup_skinning` (lines 267–277): reads `gltf.data.skins[pynode.skin]`
and `pyskin.joints[0]` (both raw subscription, raising `IndexError` when out
of range or empty), then targets the armature modifier at the first joint's
owning armature object. -/
def setup_skinning (doc : GltfData) (store : VStore) (skinIdx : Int) :
    Except PyErr Nat :=
  match pyGet doc.skins skinIdx with
  | .error e => .error e
  | .ok pyskin =>
    match pyGet pyskin.joints 0 with
    | .error e => .error e
    | .ok firstJoint =>
      let first_bone := store firstJoint
      .ok first_bone.bone_arma

/-- Lines 231–237 of `create_mesh_object`: look the cache key up in this
mesh's `blender_name` dict and reuse the host mesh on a hit; otherwise call
`BlenderMesh.create` (modelled as minting the fresh name `meshesCreated`)
and, when a key exists, record the new name under it. -/
def mesh_from_cache (m : Int) (key : Option CacheKey) (st : ImpState) :
    ImpState × Nat :=
  match key with
  | some k =>
    match st.meshCache.find? (fun e => decide (e.1 = (m, k))) with
    | some entry => (st, entry.2)
    | none =>
      let name := st.meshesCreated
      ({ st with
          meshesCreated := st.meshesCreated + 1,
          meshCache := st.meshCache ++ [((m, k), name)] }, name)
  | none =>
    -- don't use the cache at all
    ({ st with meshesCreated := st.meshesCreated + 1 }, st.meshesCreated)

/-- `create_mesh_object` (lines 212–248).  `BlenderMesh.create` is the
excluded materialization adapter; it is modelled as minting a fresh host
mesh name (the `meshesCreated` counter). -/
def create_mesh_object (doc : GltfData) (store : VStore) (vid : Nat)
    (vnode : VNode) (st : ImpState) : ImpState × Except PyErr ObjRec :=
  match vnode.mesh_node_idx with
  | none => (st, .error .typeError)
  | some ni =>
    match pyGet doc.nodes (Int.ofNat ni) with
    | .error e => (st, .error e)
    | .ok pynode =>
      match pynode.mesh with
      | none => (st, .error .typeError)
      | some m =>
        if ¬ (0 ≤ m ∧ m < (doc.meshes.length : Int)) then
          -- Avoid traceback for invalid gltf file: invalid reference to
          -- meshes array.  So return an empty blender object.
          (st, .ok { vid := vid, data := .noData })
        else
          match pyGet doc.meshes m with
          | .error e => (st, .error e)
          | .ok pymesh =>
            let cache_key := cache_key_of pymesh pynode
            let stMesh : ImpState × Nat := mesh_from_cache m cache_key st
            let st := stMesh.1
            let obj : ObjRec := { vid := vid, data := .meshData stMesh.2 }
            match
              (if pymesh.shapekey_names ≠ [] then
                match set_morph_weights pymesh pynode with
                | .error e => .error e
                | .ok ws => .ok { obj with morph_weight_values := ws }
              else .ok obj : Except PyErr ObjRec) with
            | .error e => (st, .error e)
            | .ok obj =>
              match pynode.skin with
              | some skinIdx =>
                match setup_skinning doc store skinIdx with
                | .error e => (st, .error e)
                | .ok armaVid =>
                  (st, .ok { obj with armature_modifier := some armaVid })
              | none => (st, .ok obj)

/-- Python `min(sizes, default=d)`. -/
def py_min (l : List ℚ) (d : ℚ) : ℚ :=
  match l with
  | [] => d
  | x :: xs => xs.foldl min x

/-- `calc_empty_display_size` (lines 131–140): guess a display size from the
distances of the node and its direct children. -/
def calc_empty_display_size (host : Host) (store : VStore) (vid : Nat) : ℚ :=
  let vids := vid :: (store vid).children
  let sizes := vids.map (fun v => host.vlen ((store v).trs.t) * 0.4)
  max (py_min sizes 1) 0.001

/-- The branch dispatch of `create_object` (lines 61–91): mesh / camera /
light / armature / empty, in source order. -/
def create_object_base (host : Host) (doc : GltfData) (store : VStore)
    (vid : Nat) (st : ImpState) : ImpState × Except PyErr ObjRec :=
  let vnode := store vid
  match vnode.mesh_node_idx with
  | some _ => create_mesh_object doc store vid vnode st
  | none =>
    match vnode.camera_node_idx with
    | some ci =>
      match pyGet doc.nodes (Int.ofNat ci) with
      | .error e => (st, .error e)
      | .ok pynode => (st, .ok { vid := vid, data := .cameraData pynode.camera })
    | none =>
      match vnode.light_node_idx with
      | some li =>
        match pyGet doc.nodes (Int.ofNat li) with
        | .error e => (st, .error e)
        | .ok pynode =>
          match pynode.lightExt with
          | none => (st, .error .typeError)
          | some lightIdx => (st, .ok { vid := vid, data := .lightData lightIdx })
      | none =>
        if vnode.is_arma then
          (st, .ok { vid := vid, data := .armatureData })
        else
          -- Empty
          (st, .ok { vid := vid, data := .noData,
                     empty_display_size :=
                       some (calc_empty_display_size host store vid) })

/-- Lines 100–120 of `create_object`: set the object's transform from
`vnode.trs()` and its parent; an object under a Bone parent is parented to
the armature object at that bone and shifted back from tip to root. -/
def set_transform_and_parent (store : VStore) (vid : Nat) (obj : ObjRec) :
    ObjRec :=
  let vnode := store vid
  -- Set transform
  let obj := { obj with
    location := vnode.trs.t,
    rotation_quaternion := vnode.trs.r,
    scale := vnode.trs.s }
  -- Set parent
  match vnode.parent with
  | none => obj
  | some p =>
    let parent_vnode := store p
    if parent_vnode.type = .Object then
      { obj with parentVid := some p }
    else if parent_vnode.type = .Bone then
      -- Nodes with a bone parent need to be translated backwards from
      -- the tip to the root
      { obj with
        parentVid := some parent_vnode.bone_arma,
        parent_type_bone := true,
        parent_bone := some p,
        location := obj.location + ⟨0, -parent_vnode.bone_length, 0⟩ }
    else obj

/-- `create_object` (lines 57–129): build the host object for one
Object-kind vnode, set its transform and parent, record the
`blender_object` assignment and the scene link. -/
def create_object (host : Host) (doc : GltfData) (store : VStore) (vid : Nat)
    (st : ImpState) : ImpState × Except PyErr Nat :=
  match create_object_base host doc store vid st with
  | (st', .error e) => (st', .error e)
  | (st', .ok obj) =>
    let obj := set_transform_and_parent store vid obj
    let objIdx := st'.objects.length
    ({ st' with
        objects := st'.objects ++ [obj],
        assignments := st'.assignments ++ [(vid, some objIdx)] },
     .ok objIdx)

/-! ### `create_bones` (lines 142–210) -/

/-- The `visit` closure of `create_bones` (lines 150–154): depth-first walk
collecting Bone-kind nodes; the walk does not descend below a non-Bone
node.  Fueled: Python recursion is unbounded, `fuel` exceeding the tree
depth makes the walk exact. -/
def visit_bones (store : VStore) : Nat → Nat → List Nat
  | 0 => fun _ => []
  | fuel + 1 => fun id =>
    if (store id).type = .Bone then
      id :: (store id).children.flatMap (visit_bones store fuel)
    else []

/-- The editbone built for one bone vnode (lines 166–177): head, tail, and
roll-alignment argument all come from `editbone_arma_mat`. -/
def make_editbone (vnode : VNode) (vid : Nat) : EditBoneRec :=
  let arma_mat := vnode.editbone_arma_mat
  let head := arma_mat.applyPoint ⟨0, 0, 0⟩
  { vid := vid,
    head := head,
    tail := arma_mat.applyPoint ⟨0, 1, 0⟩,
    length := vnode.bone_length,
    align_roll_arg := arma_mat.applyPoint ⟨0, 0, 1⟩ - head }

/-- The parent pass of `create_bones` (lines 183–190) on one editbone: when
the vnode's parent is a Bone, link to its editbone.  A Bone vnode always
has a parent (builder invariant), so the dictionary lookup of
`gltf.vnodes[vnode.parent]` is modelled as a plain optional read. -/
def editbone_set_parent (store : VStore) (eb : EditBoneRec) : EditBoneRec :=
  match (store eb.vid).parent with
  | some p =>
    if (store p).type = .Bone then { eb with parentBone := some p } else eb
  | none => eb

/-- The pose pass of `create_bones` (lines 195–206) on one bone vnode. -/
def pose_bone_of (store : VStore) (id : Nat) : PoseBoneRec :=
  let vnode := store id
  { vid := id,
    location := pose_location vnode.editbone_rot vnode.trs.t vnode.editbone_trans,
    rotation_quaternion := pose_rotation vnode.editbone_rot vnode.trs.r,
    scale := vnode.trs.s }

/-- `create_bones` (lines 142–210): collect the armature's bones
depth-first, create editbones, set editbone parents, then compute pose
bones.  Mode switches and extras are host-only and have no core effect.
The source runs each pass as its own loop over `bone_ids`; looping a pass
over the list equals mapping it, so the two editbone passes compose. -/
def create_bones (store : VStore) (fuel : Nat) (arma_id : Nat)
    (st : ImpState) : ImpState :=
  let arma := store arma_id
  -- Find all bones for this arma
  let bone_ids := arma.children.flatMap (visit_bones store fuel)
  -- First and second pass: create all edit bones, then set their parents
  let ebs := bone_ids.map
    (fun id => editbone_set_parent store (make_editbone (store id) id))
  -- Third pass: pose bones
  let pbs := bone_ids.map (pose_bone_of store)
  { st with
      editBones := st.editBones ++ ebs,
      poseBones := st.poseBones ++ pbs }

/-! ### `create_vnode` (lines 29–55) -/

/-- Run `step` over a list of children, stopping at the first raised
exception (which propagates, keeping the state at raise time) or at fuel
exhaustion. -/
def run_children (step : Nat → ImpState → Option (ImpState × Option PyErr)) :
    List Nat → ImpState → Option (ImpState × Option PyErr)
  | [], st => some (st, none)
  | c :: cs, st =>
    match step c st with
    | none => none
    | some (st', some e) => some (st', some e)
    | some (st', none) => run_children step cs st'

/-- `create_vnode` (lines 29–55): create a vnode and all its descendants.
Object vnodes get a host object (and, for armatures, their bones); Bone
vnodes are skipped (created with their armature); the dummy root gets
`blender_object = None` and no host object.  Children are visited in
order.  The result `none` means the fuel ran out, which never happens on
acyclic stores; `some (st, some e)` is a propagating Python exception. -/
def create_vnode (host : Host) (doc : GltfData) (store : VStore) :
    Nat → Nat → ImpState → Option (ImpState × Option PyErr)
  | 0 => fun _ _ => none
  | fuel + 1 => fun vid st =>
    let vnode := store vid
    -- gltf.display_current_node += 1
    let st := { st with visited := st.visited ++ [vid] }
    let step : ImpState × Option PyErr :=
      match vnode.type with
      | .Object =>
        match create_object host doc store vid st with
        | (st', .error e) => (st', some e)
        | (st', .ok _) =>
          if vnode.is_arma then (create_bones store fuel vid st', none)
          else (st', none)
      | .Bone =>
        -- These are created with their armature
        (st, none)
      | .DummyRoot =>
        -- Don't actually create this
        ({ st with assignments := st.assignments ++ [(vid, none)] }, none)
    match step with
    | (st', some e) => some (st', some e)
    | (st', none) =>
      run_children (create_vnode host doc store fuel) vnode.children st'

/-! ### Analysis: pre-order listings, reachability, and forest facts

`create_vnode` and the bone walk are plain depth-first traversals; the
following pure listings name the orders they follow, and the `Reach`
relation names descendancy in the vnode store.  A store is *acyclic* when
some rank function strictly decreases from parent to child (every finite
forest admits one, e.g. depth counted from a deepest node); it is a
*forest* when additionally no id has two parents and children lists repeat
no id. -/

/-- Fueled pre-order listing of the subtree below `vid` (children in list
order). -/
def preorder (store : VStore) : Nat → Nat → List Nat
  | 0 => fun _ => []
  | fuel + 1 => fun vid =>
    vid :: (store vid).children.flatMap (preorder store fuel)

/-- Descendancy in the vnode store: `Reach store a x` when `x` is `a` or a
repeated child of `a`. -/
inductive Reach (store : VStore) : Nat → Nat → Prop where
  | refl (a : Nat) : Reach store a a
  | step {a b x : Nat} : b ∈ (store a).children → Reach store b x →
      Reach store a x

/-- The rank of a node strictly exceeds the ranks of its children:
the witness of acyclicity. -/
def RankOk (store : VStore) (rank : Nat → Nat) : Prop :=
  ∀ i c, c ∈ (store i).children → rank c < rank i

/-- No id appears in two children lists (each node has at most one
parent). -/
def ParentUnique (store : VStore) : Prop :=
  ∀ i j c, c ∈ (store i).children → c ∈ (store j).children → i = j

/-- Every children list is duplicate-free. -/
def ChildrenNodup (store : VStore) : Prop :=
  ∀ i, (store i).children.Nodup

/-! ### The walk's effect on the state

`RunOut pre st st' e?` collects what one (sub)walk guarantees: the visit
log grows by a prefix of the pre-order listing `pre` (by all of it when no
exception escaped), and the object and assignment lists only grow, with
every new host object belonging to an Object-kind vnode. -/

/-- Guarantees of a (sub)walk from state `st` to `st'`. -/
def RunOut (store : VStore) (pre : List Nat) (st st' : ImpState)
    (e? : Option PyErr) : Prop :=
  (∃ l, st'.visited = st.visited ++ l ∧ l.Sublist pre ∧
    (e? = none → l = pre)) ∧
  (∃ o, st'.objects = st.objects ++ o ∧
    ∀ x ∈ o, (store x.vid).type = VKind.Object) ∧
  (∃ a, st'.assignments = st.assignments ++ a) ∧
  (e? = none → ∀ x ∈ pre, (store x).type = VKind.Object →
    ∃ oi, (x, some oi) ∈ st'.assignments)

/-- The per-child guarantee assumed when walking a children list. -/
def StepSpec (store : VStore)
    (step : Nat → ImpState → Option (ImpState × Option PyErr))
    (pre : Nat → List Nat) : Prop :=
  ∀ c st st' e?, step c st = some (st', e?) → RunOut store (pre c) st st' e?

/-! ### Concrete scenario material

Small stores and documents used to instantiate the theorems and to exhibit
the behaviour of the walk on malformed references. -/

/-- A concrete host (any total vector-length function works here). -/
def hostW : Host := ⟨fun v => v.x + v.y + v.z⟩

/-- An empty document. -/
def docW : GltfData := {}

/-- A dummy root over two plain empties. -/
def storeDummy : VStore := fun i =>
  match i with
  | 0 => { type := .DummyRoot, children := [1, 2] }
  | 1 => { parent := some 0 }
  | 2 => { parent := some 0 }
  | _ => {}

/-- Depth-style rank for `storeDummy`. -/
def rankDummy : Nat → Nat := fun i =>
  match i with
  | 0 => 1
  | _ => 0

/-- A dummy root whose first child carries a mesh reference (glTF node 0)
and whose second child is an unrelated empty. -/
def storeMeshChild : VStore := fun i =>
  match i with
  | 0 => { type := .DummyRoot, children := [1, 2] }
  | 1 => { parent := some 0, mesh_node_idx := some 0 }
  | 2 => { parent := some 0 }
  | _ => {}

/-- C2's scenario document: node 0 references mesh 99 in a document with 2
meshes. -/
def docBadMesh : GltfData :=
  { nodes := [{ mesh := some 99 }], meshes := [{}, {}], skins := [] }

/-- A document whose node 0 has a valid mesh but an out-of-range skin 99
(no skins at all). -/
def docBadSkin : GltfData :=
  { nodes := [{ mesh := some 0, skin := some 99 }], meshes := [{}],
    skins := [] }

/-- C3's scenario document: a skin with an empty joint list, referenced by
node 0. -/
def docEmptyJoints : GltfData :=
  { nodes := [{ mesh := some 0, skin := some 0 }], meshes := [{}],
    skins := [{ joints := [] }] }

/-- A valid single-mesh document for the caching scenarios. -/
def docOneMesh : GltfData :=
  { nodes := [{ mesh := some 0 }], meshes := [{}], skins := [] }

/-- Two bone-bearing armatures under one dummy root: armature 1 with bone
2, armature 3 with bone 4 (the multi-skin shape the builder produces for
disjoint skins). -/
def storeTwoArma : VStore := fun i =>
  match i with
  | 0 => { type := .DummyRoot, children := [1, 3] }
  | 1 => { is_arma := true, parent := some 0, children := [2] }
  | 2 => { type := .Bone, parent := some 1, bone_arma := 1 }
  | 3 => { is_arma := true, parent := some 0, children := [4] }
  | 4 => { type := .Bone, parent := some 3, bone_arma := 3 }
  | _ => {}

/-- Depth-style rank for `storeTwoArma`. -/
def rankTwoArma : Nat → Nat := fun i =>
  match i with
  | 0 => 2
  | 1 => 1
  | 2 => 0
  | 3 => 1
  | _ => 0

/-! ## Lemmas and claim theorems -/

theorem mesh_from_cache_frame (m : Int) (key : Option CacheKey)
    (st : ImpState) :
    (mesh_from_cache m key st).1.visited = st.visited ∧
    (mesh_from_cache m key st).1.objects = st.objects ∧
    (mesh_from_cache m key st).1.assignments = st.assignments ∧
    (mesh_from_cache m key st).1.editBones = st.editBones ∧
    (mesh_from_cache m key st).1.poseBones = st.poseBones := by
  unfold mesh_from_cache
  repeat' split
  all_goals simp_all

theorem Reach.rank_le {store : VStore} {rank : Nat → Nat}
    (hr : RankOk store rank) {a x : Nat} (h : Reach store a x) :
    rank x ≤ rank a := by
  induction h with
  | refl => exact le_refl _
  | step hb _ ih => exact ih.trans (le_of_lt (hr _ _ hb))

/-- Tail decomposition of a reachability chain: either trivial, or the
last step enters `x` from some ancestor `p` that is itself reachable. -/
theorem Reach.last_step {store : VStore} {a x : Nat} (h : Reach store a x) :
    a = x ∨ ∃ p, Reach store a p ∧ x ∈ (store p).children := by
  induction h with
  | refl => exact Or.inl rfl
  | step hb _ ih =>
    rcases ih with rfl | ⟨p, hp, hx⟩
    · exact Or.inr ⟨_, Reach.refl _, hb⟩
    · exact Or.inr ⟨p, Reach.step hb hp, hx⟩

/-- In a forest the ancestors of a node are totally ordered: two nodes
reaching a common descendant are comparable. -/
theorem Reach.total_of_common {store : VStore} (hp : ParentUnique store)
    {c₁ c₂ x : Nat} (h₁ : Reach store c₁ x) (h₂ : Reach store c₂ x) :
    Reach store c₁ c₂ ∨ Reach store c₂ c₁ := by
  induction h₁ with
  | refl => exact Or.inr h₂
  | step hb _ ih =>
    rcases ih h₂ with hdc | hcd
    · exact Or.inl (Reach.step hb hdc)
    · rcases Reach.last_step hcd with rfl | ⟨p, hpreach, hmem⟩
      · exact Or.inl (Reach.step hb (Reach.refl _))
      · exact Or.inr (hp _ _ _ hmem hb ▸ hpreach)

/-- Subtrees rooted at two distinct children of the same node are
disjoint. -/
theorem reach_disjoint_of_siblings {store : VStore} {rank : Nat → Nat}
    (hr : RankOk store rank) (hp : ParentUnique store)
    {s c₁ c₂ x : Nat} (h₁ : c₁ ∈ (store s).children)
    (h₂ : c₂ ∈ (store s).children) (hne : c₁ ≠ c₂)
    (r₁ : Reach store c₁ x) (r₂ : Reach store c₂ x) : False := by
  have key : ∀ a b : Nat, a ∈ (store s).children → b ∈ (store s).children →
      a ≠ b → Reach store a b → False := by
    intro a b ha hb hab hr'
    rcases Reach.last_step hr' with rfl | ⟨p, hpreach, hmem⟩
    · exact hab rfl
    · have hps : p = s := hp _ _ _ hmem hb
      subst hps
      have h1 : rank p ≤ rank a := Reach.rank_le hr hpreach
      have h2 : rank a < rank p := hr _ _ ha
      omega
  rcases Reach.total_of_common hp r₁ r₂ with h | h
  · exact key _ _ h₁ h₂ hne h
  · exact key _ _ h₂ h₁ (Ne.symm hne) h

theorem mem_preorder_reach {store : VStore} :
    ∀ {fuel vid x : Nat}, x ∈ preorder store fuel vid → Reach store vid x := by
  intro fuel
  induction fuel with
  | zero => intro vid x hx; simp [preorder] at hx
  | succ f ih =>
    intro vid x hx
    simp only [preorder, List.mem_cons, List.mem_flatMap] at hx
    rcases hx with rfl | ⟨c, hc, hx⟩
    · exact Reach.refl _
    · exact Reach.step hc (ih hx)

theorem self_mem_preorder {store : VStore} {fuel vid : Nat} :
    x ∈ preorder store (fuel + 1) vid → x = vid ∨
      ∃ c ∈ (store vid).children, x ∈ preorder store fuel c := by
  intro hx
  simpa [preorder, List.mem_flatMap] using hx

/-- On an acyclic store, a pre-order listing with enough fuel repeats no
node. -/
theorem preorder_nodup {store : VStore} {rank : Nat → Nat}
    (hr : RankOk store rank) (hp : ParentUnique store)
    (hc : ChildrenNodup store) :
    ∀ fuel vid, rank vid < fuel → (preorder store fuel vid).Nodup := by
  intro fuel
  induction fuel with
  | zero => intro vid h; omega
  | succ f ih =>
    intro vid hv
    simp only [preorder, List.nodup_cons]
    constructor
    · intro hmem
      rcases List.mem_flatMap.mp hmem with ⟨c, hc', hx⟩
      have hreach : Reach store c vid := mem_preorder_reach hx
      have h1 : rank vid ≤ rank c := Reach.rank_le hr hreach
      have h2 : rank c < rank vid := hr _ _ hc'
      omega
    · refine List.nodup_flatMap.mpr ⟨?_, ?_⟩
      · intro c hc'
        exact ih c (by have := hr _ _ hc'; omega)
      · refine List.Pairwise.imp_of_mem ?_ (hc vid)
        intro a b ha hb hab
        intro x hxa hxb
        exact reach_disjoint_of_siblings hr hp ha hb hab
          (mem_preorder_reach hxa) (mem_preorder_reach hxb)

/-- Every node listed below `vid` stays in any id set closed under the
child relation. -/
theorem reach_mem_ids {store : VStore} {ids : List Nat}
    (hclosed : ∀ i c, c ∈ (store i).children → c ∈ ids)
    {vid x : Nat} (hvid : vid ∈ ids) (h : Reach store vid x) : x ∈ ids := by
  induction h with
  | refl => exact hvid
  | step hb _ ih => exact ih (hclosed _ _ hb)

/-! ### Frame lemmas: which state components each routine can touch -/

/-- `create_mesh_object` only touches the mesh cache and the mesh-creation
counter, and any object it returns carries `vid`. -/
theorem create_mesh_object_frame (doc : GltfData) (store : VStore)
    (vid : Nat) (vnode : VNode) (st : ImpState) :
    (create_mesh_object doc store vid vnode st).1.visited = st.visited ∧
    (create_mesh_object doc store vid vnode st).1.objects = st.objects ∧
    (create_mesh_object doc store vid vnode st).1.assignments = st.assignments ∧
    (create_mesh_object doc store vid vnode st).1.editBones = st.editBones ∧
    (create_mesh_object doc store vid vnode st).1.poseBones = st.poseBones ∧
    (∀ obj, (create_mesh_object doc store vid vnode st).2 = .ok obj →
      obj.vid = vid) := by
  have hmc := fun m k => mesh_from_cache_frame m k st
  unfold create_mesh_object
  repeat' split
  all_goals simp_all

/-- The branch dispatch touches only what `create_mesh_object` touches, and
any object it returns carries `vid`. -/
theorem create_object_base_spec (host : Host) (doc : GltfData)
    (store : VStore) (vid : Nat) (st : ImpState) :
    (create_object_base host doc store vid st).1.visited = st.visited ∧
    (create_object_base host doc store vid st).1.objects = st.objects ∧
    (create_object_base host doc store vid st).1.assignments = st.assignments ∧
    (create_object_base host doc store vid st).1.editBones = st.editBones ∧
    (create_object_base host doc store vid st).1.poseBones = st.poseBones ∧
    (∀ obj, (create_object_base host doc store vid st).2 = .ok obj →
      obj.vid = vid) := by
  have hmo := create_mesh_object_frame doc store vid (store vid) st
  simp only [create_object_base]
  repeat' split
  all_goals simp_all

theorem set_transform_and_parent_vid (store : VStore) (vid : Nat)
    (obj : ObjRec) : (set_transform_and_parent store vid obj).vid = obj.vid := by
  simp only [set_transform_and_parent]
  repeat' split
  all_goals simp_all

/-- `create_object` leaves the visit log and the bone lists alone; it
appends exactly one object record (carrying `vid`) and one
`blender_object` assignment on success, nothing on error. -/
theorem create_object_spec (host : Host) (doc : GltfData) (store : VStore)
    (vid : Nat) (st : ImpState) :
    (create_object host doc store vid st).1.visited = st.visited ∧
    (create_object host doc store vid st).1.editBones = st.editBones ∧
    (create_object host doc store vid st).1.poseBones = st.poseBones ∧
    ((∃ e, (create_object host doc store vid st).2 = .error e) →
      (create_object host doc store vid st).1.objects = st.objects ∧
      (create_object host doc store vid st).1.assignments = st.assignments) ∧
    (∀ oi, (create_object host doc store vid st).2 = .ok oi →
      (∃ obj, obj.vid = vid ∧
        (create_object host doc store vid st).1.objects = st.objects ++ [obj]) ∧
      (create_object host doc store vid st).1.assignments =
        st.assignments ++ [(vid, some oi)]) := by
  have hb := create_object_base_spec host doc store vid st
  unfold create_object
  rcases hbase : create_object_base host doc store vid st with ⟨st', r⟩
  rw [hbase] at hb
  obtain ⟨hv, ho, ha, he, hp, hok⟩ := hb
  rcases r with e | obj
  · exact ⟨hv, he, hp, fun _ => ⟨ho, ha⟩, fun oi h => by simp at h⟩
  · have hvid : obj.vid = vid := hok obj rfl
    refine ⟨hv, he, hp, ?_, ?_⟩
    · rintro ⟨e, hcontra⟩; simp at hcontra
    · intro oi hoi
      simp only at hoi
      have ho' : st'.objects = st.objects := ho
      have ha' : st'.assignments = st.assignments := ha
      refine ⟨⟨set_transform_and_parent store vid obj, ?_, ?_⟩, ?_⟩
      · rw [set_transform_and_parent_vid, hvid]
      · simp [ho']
      · rcases hoi
        simp [ha', ho']

/-- `create_bones` only appends to the two bone lists. -/
theorem create_bones_frame (store : VStore) (fuel arma_id : Nat)
    (st : ImpState) :
    (create_bones store fuel arma_id st).visited = st.visited ∧
    (create_bones store fuel arma_id st).objects = st.objects ∧
    (create_bones store fuel arma_id st).assignments = st.assignments := by
  simp [create_bones]

/-! ### Vector and quaternion algebra -/

theorem Vec3.add_def (a b : Vec3) :
    a + b = ⟨a.x + b.x, a.y + b.y, a.z + b.z⟩ := rfl

theorem Vec3.sub_def (a b : Vec3) :
    a - b = ⟨a.x - b.x, a.y - b.y, a.z - b.z⟩ := rfl

theorem Vec3.hadamard_one (v : Vec3) : Vec3.hadamard Vec3.one v = v := by
  cases v
  simp [Vec3.hadamard, Vec3.one]

theorem Quat.mul_assoc' (a b c : Quat) :
    Quat.mul (Quat.mul a b) c = Quat.mul a (Quat.mul b c) := by
  cases a; cases b; cases c
  simp only [Quat.mul, Quat.mk.injEq]
  refine ⟨by ring, by ring, by ring, by ring⟩

theorem Quat.idq_mul (a : Quat) : Quat.mul Quat.idq a = a := by
  cases a
  simp only [Quat.mul, Quat.idq, Quat.mk.injEq]
  refine ⟨by ring, by ring, by ring, by ring⟩

/-- A rotation quaternion times its conjugate is the identity. -/
theorem Quat.mul_conjugated_self {q : Quat} (h : Quat.normSq q = 1) :
    Quat.mul q q.conjugated = Quat.idq := by
  cases q
  simp only [Quat.normSq] at h
  simp only [Quat.mul, Quat.conjugated, Quat.idq, Quat.mk.injEq]
  refine ⟨by linear_combination h, by ring, by ring, by ring⟩

/-- Rotating by `q` then by `p` is rotating by the product `p·q`
(unconditionally: the sandwich composes by associativity). -/
theorem Quat.rotate_rotate (p q : Quat) (v : Vec3) :
    Quat.rotate p (Quat.rotate q v) = Quat.rotate (Quat.mul p q) v := by
  cases p; cases q; cases v
  simp only [Quat.rotate, Quat.mul, Quat.conjugated, Quat.ofVec,
    Quat.vecPart, Vec3.mk.injEq]
  refine ⟨by ring, by ring, by ring⟩

theorem Quat.rotate_idq (v : Vec3) : Quat.rotate Quat.idq v = v := by
  cases v
  simp only [Quat.rotate, Quat.mul, Quat.conjugated, Quat.idq, Quat.ofVec,
    Quat.vecPart, Vec3.mk.injEq]
  refine ⟨by ring, by ring, by ring⟩

theorem Quat.rotate_add (q : Quat) (a b : Vec3) :
    Quat.rotate q (a + b) = Quat.rotate q a + Quat.rotate q b := by
  cases q; cases a; cases b
  simp only [Quat.rotate, Quat.mul, Quat.conjugated, Quat.ofVec,
    Quat.vecPart, Vec3.add_def, Vec3.mk.injEq]
  refine ⟨by ring, by ring, by ring⟩

theorem run_children_spec {store : VStore}
    {step : Nat → ImpState → Option (ImpState × Option PyErr)}
    {pre : Nat → List Nat} (hstep : StepSpec store step pre) :
    ∀ cs st st' e?, run_children step cs st = some (st', e?) →
      RunOut store (cs.flatMap pre) st st' e? := by
  intro cs
  induction cs with
  | nil =>
    intro st st' e? h
    simp only [run_children, Option.some.injEq, Prod.mk.injEq] at h
    obtain ⟨rfl, rfl⟩ := h
    exact ⟨⟨[], by simp⟩, ⟨[], by simp⟩, ⟨[], by simp⟩,
      by intro _ x hx; simp at hx⟩
  | cons c cs ih =>
    intro st st' e? h
    simp only [run_children] at h
    rcases hc : step c st with _ | ⟨st₁, e₁⟩
    · rw [hc] at h; simp at h
    · rw [hc] at h
      rcases e₁ with _ | e₁
      · -- first child finished cleanly; continue with the rest
        simp only at h
        obtain ⟨⟨l₁, hv₁, _, hfull₁⟩, ⟨o₁, ho₁, hot₁⟩, ⟨a₁, ha₁⟩, hcr₁⟩ :=
          hstep c st st₁ none hc
        obtain ⟨⟨l₂, hv₂, hsub₂, hfull₂⟩, ⟨o₂, ho₂, hot₂⟩, ⟨a₂, ha₂⟩, hcr₂⟩ :=
          ih st₁ st' e? h
        refine ⟨⟨l₁ ++ l₂, ?_, ?_, ?_⟩, ⟨o₁ ++ o₂, ?_, ?_⟩,
          ⟨a₁ ++ a₂, by rw [ha₂, ha₁, List.append_assoc]⟩, ?_⟩
        · rw [hv₂, hv₁, List.append_assoc]
        · rw [hfull₁ rfl]
          exact (List.Sublist.refl _).append hsub₂ |>.trans
            (by simp [List.flatMap_cons])
        · intro he
          rw [hfull₁ rfl, hfull₂ he, List.flatMap_cons]
        · rw [ho₂, ho₁, List.append_assoc]
        · intro x hx
          rcases List.mem_append.mp hx with hx | hx
          · exact hot₁ x hx
          · exact hot₂ x hx
        · intro he x hx hobj
          rcases (by simpa [List.flatMap_cons] using hx :
              x ∈ pre c ∨ ∃ d ∈ cs, x ∈ pre d) with hx' | ⟨d, hd, hxd⟩
          · obtain ⟨oi, hoi⟩ := hcr₁ rfl x hx' hobj
            exact ⟨oi, by rw [ha₂]; exact List.mem_append_left _ hoi⟩
          · exact hcr₂ he x (List.mem_flatMap.mpr ⟨d, hd, hxd⟩) hobj
      · -- exception: it propagates, later children are not walked
        simp only [Option.some.injEq, Prod.mk.injEq] at h
        obtain ⟨rfl, rfl⟩ := h
        obtain ⟨⟨l₁, hv₁, hsub₁, _⟩, ho, ha, _⟩ := hstep c st st₁ (some e₁) hc
        refine ⟨⟨l₁, hv₁, ?_, by simp⟩, ho, ha, by intro he; simp at he⟩
        exact hsub₁.trans (by simp [List.flatMap_cons])

/-- Main invariant of the walk: one `create_vnode` call from `vid` logs a
prefix of `preorder` (all of it when no exception escapes), creates host
objects only for Object-kind vnodes, and only appends assignments. -/
theorem create_vnode_spec (host : Host) (doc : GltfData) (store : VStore) :
    ∀ fuel vid st st' e?,
      create_vnode host doc store fuel vid st = some (st', e?) →
      RunOut store (preorder store fuel vid) st st' e? := by
  intro fuel
  induction fuel with
  | zero => intro vid st st' e? h; simp [create_vnode] at h
  | succ f ih =>
    intro vid st st' e? h
    simp only [create_vnode] at h
    rcases htype : (store vid).type with _ | _ | _ <;> rw [htype] at h
    · -- Object: create the host object (and bones for an armature)
      rcases hco : create_object host doc store vid
          { st with visited := st.visited ++ [vid] } with ⟨st₂, r⟩
      rw [hco] at h
      have hcs := create_object_spec host doc store vid
        { st with visited := st.visited ++ [vid] }
      rw [hco] at hcs
      obtain ⟨hv₂, _, _, herr, hok⟩ := hcs
      rcases r with e | oi
      · simp only [Option.some.injEq, Prod.mk.injEq] at h
        obtain ⟨rfl, rfl⟩ := h
        obtain ⟨ho₂, ha₂⟩ := herr ⟨e, rfl⟩
        refine ⟨⟨[vid], by simpa using hv₂, ?_, by simp⟩,
          ⟨[], by simpa using ho₂, by simp⟩, ⟨[], by simpa using ha₂⟩,
          by intro he; simp at he⟩
        simp [preorder]
      · obtain ⟨⟨obj, hobjvid, ho₂⟩, ha₂⟩ := hok oi rfl
        rcases harma : (store vid).is_arma <;> rw [harma] at h <;>
          simp only [Bool.false_eq_true, if_false, if_true] at h
        · -- not an armature
          obtain ⟨⟨l₂, hv', hsub, hfull⟩, ⟨o₂, ho', hot⟩, ⟨a₂, ha'⟩, hcr⟩ :=
            run_children_spec (fun c st st' e? hc => ih c st st' e? hc)
              (store vid).children st₂ st' e? h
          refine ⟨⟨vid :: l₂, ?_, ?_, ?_⟩,
            ⟨obj :: o₂, ?_, ?_⟩, ⟨(vid, some oi) :: a₂, ?_⟩, ?_⟩
          · rw [hv', hv₂]; simp
          · simpa [preorder] using hsub.cons₂ vid
          · intro he; rw [hfull he]; simp [preorder]
          · rw [ho', ho₂]; simp
          · intro x hx
            rcases List.mem_cons.mp hx with rfl | hx
            · rw [hobjvid]; exact htype
            · exact hot x hx
          · rw [ha', ha₂]; simp
          · intro he x hx hobj
            rcases (by simpa [preorder] using hx :
                x = vid ∨ ∃ c ∈ (store vid).children,
                  x ∈ preorder store f c) with rfl | hx'
            · refine ⟨oi, ?_⟩
              rw [ha', ha₂]
              exact List.mem_append_left _ (List.mem_append_right _ (by simp))
            · obtain ⟨c, hcmem, hxc⟩ := hx'
              exact hcr he x (List.mem_flatMap.mpr ⟨c, hcmem, hxc⟩) hobj
        · -- armature: create_bones before walking the children
          have hbf := create_bones_frame store f vid st₂
          obtain ⟨⟨l₂, hv', hsub, hfull⟩, ⟨o₂, ho', hot⟩, ⟨a₂, ha'⟩, hcr⟩ :=
            run_children_spec (fun c st st' e? hc => ih c st st' e? hc)
              (store vid).children (create_bones store f vid st₂) st' e? h
          refine ⟨⟨vid :: l₂, ?_, ?_, ?_⟩,
            ⟨obj :: o₂, ?_, ?_⟩, ⟨(vid, some oi) :: a₂, ?_⟩, ?_⟩
          · rw [hv', hbf.1, hv₂]; simp
          · simpa [preorder] using hsub.cons₂ vid
          · intro he; rw [hfull he]; simp [preorder]
          · rw [ho', hbf.2.1, ho₂]; simp
          · intro x hx
            rcases List.mem_cons.mp hx with rfl | hx
            · rw [hobjvid]; exact htype
            · exact hot x hx
          · rw [ha', hbf.2.2, ha₂]; simp
          · intro he x hx hobj
            rcases (by simpa [preorder] using hx :
                x = vid ∨ ∃ c ∈ (store vid).children,
                  x ∈ preorder store f c) with rfl | hx'
            · refine ⟨oi, ?_⟩
              rw [ha', hbf.2.2, ha₂]
              exact List.mem_append_left _ (List.mem_append_right _ (by simp))
            · obtain ⟨c, hcmem, hxc⟩ := hx'
              exact hcr he x (List.mem_flatMap.mpr ⟨c, hcmem, hxc⟩) hobj
    · -- Bone: created with the armature, only the children are walked
      obtain ⟨⟨l₂, hv', hsub, hfull⟩, ⟨o₂, ho', hot⟩, ⟨a₂, ha'⟩, hcr⟩ :=
        run_children_spec (fun c st st' e? hc => ih c st st' e? hc)
          (store vid).children { st with visited := st.visited ++ [vid] }
          st' e? h
      refine ⟨⟨vid :: l₂, ?_, ?_, ?_⟩, ⟨o₂, by simpa using ho', hot⟩,
        ⟨a₂, by simpa using ha'⟩, ?_⟩
      · rw [hv']; simp
      · simpa [preorder] using hsub.cons₂ vid
      · intro he; rw [hfull he]; simp [preorder]
      · intro he x hx hobj
        rcases (by simpa [preorder] using hx :
            x = vid ∨ ∃ c ∈ (store vid).children,
              x ∈ preorder store f c) with rfl | hx'
        · rw [htype] at hobj; simp at hobj
        · obtain ⟨c, hcmem, hxc⟩ := hx'
          exact hcr he x (List.mem_flatMap.mpr ⟨c, hcmem, hxc⟩) hobj
    · -- DummyRoot: record blender_object = None, walk the children
      obtain ⟨⟨l₂, hv', hsub, hfull⟩, ⟨o₂, ho', hot⟩, ⟨a₂, ha'⟩, hcr⟩ :=
        run_children_spec (fun c st st' e? hc => ih c st st' e? hc)
          (store vid).children
          { st with visited := st.visited ++ [vid],
                    assignments := st.assignments ++ [(vid, none)] }
          st' e? h
      refine ⟨⟨vid :: l₂, ?_, ?_, ?_⟩, ⟨o₂, by simpa using ho', hot⟩,
        ⟨(vid, none) :: a₂, ?_⟩, ?_⟩
      · rw [hv']; simp
      · simpa [preorder] using hsub.cons₂ vid
      · intro he; rw [hfull he]; simp [preorder]
      · rw [ha']; simp
      · intro he x hx hobj
        rcases (by simpa [preorder] using hx :
            x = vid ∨ ∃ c ∈ (store vid).children,
              x ∈ preorder store f c) with rfl | hx'
        · rw [htype] at hobj; simp at hobj
        · obtain ⟨c, hcmem, hxc⟩ := hx'
          exact hcr he x (List.mem_flatMap.mpr ⟨c, hcmem, hxc⟩) hobj

theorem run_children_total
    {step : Nat → ImpState → Option (ImpState × Option PyErr)}
    {cs : List Nat} (hstep : ∀ c ∈ cs, ∀ st, step c st ≠ none) :
    ∀ st, run_children step cs st ≠ none := by
  induction cs with
  | nil => intro st; simp [run_children]
  | cons c cs ih =>
    intro st
    simp only [run_children]
    rcases hc : step c st with _ | ⟨st₁, e₁⟩
    · exact absurd hc (hstep c (by simp) st)
    · rcases e₁ with _ | e₁
      · exact ih (fun c' hc' st => hstep c' (by simp [hc']) st) st₁
      · simp

/-- On an acyclic store the fuel never runs out: `fuel` above the rank of
the start node makes the walk complete (normally or with a propagated
exception) — the Python recursion terminates. -/
theorem create_vnode_total (host : Host) (doc : GltfData) (store : VStore)
    {rank : Nat → Nat} (hr : RankOk store rank) :
    ∀ fuel vid st, rank vid < fuel →
      create_vnode host doc store fuel vid st ≠ none := by
  intro fuel
  induction fuel with
  | zero => intro vid st h; omega
  | succ f ih =>
    intro vid st hv
    simp only [create_vnode]
    rcases htype : (store vid).type with _ | _ | _ <;> simp only []
    · rcases hco : create_object host doc store vid
          { st with visited := st.visited ++ [vid] } with ⟨st₂, r⟩
      rcases r with e | oi
      · simp
      · rcases harma : (store vid).is_arma <;> simp only [if_true, if_false]
        all_goals
          exact run_children_total
            (fun c hc st => ih c st (by have := hr _ _ hc; omega)) _
    · exact run_children_total
        (fun c hc st => ih c st (by have := hr _ _ hc; omega)) _
    · exact run_children_total
        (fun c hc st => ih c st (by have := hr _ _ hc; omega)) _

/-! ### Small algebra helpers for the claim theorems -/

theorem Vec3.smul_zero_left (v : Vec3) : Vec3.smul 0 v = Vec3.zero := by
  cases v; simp [Vec3.smul, Vec3.zero]

theorem Mat4.applyPoint_origin (m : Mat4) :
    m.applyPoint ⟨0, 0, 0⟩ = m.transl := by
  rcases m with ⟨⟨ax, ay, az⟩, ⟨bx, b2, b3⟩, ⟨cx, cy, cz⟩, ⟨tx, ty, tz⟩⟩
  simp only [Mat4.applyPoint, Vec3.smul, Vec3.add_def, Vec3.mk.injEq]
  refine ⟨by ring, by ring, by ring⟩

theorem Mat4.applyPoint_unitY (m : Mat4) :
    m.applyPoint ⟨0, 1, 0⟩ = m.transl + m.colY := by
  rcases m with ⟨⟨ax, ay, az⟩, ⟨bx, b2, b3⟩, ⟨cx, cy, cz⟩, ⟨tx, ty, tz⟩⟩
  simp only [Mat4.applyPoint, Vec3.smul, Vec3.add_def, Vec3.mk.injEq]
  refine ⟨by ring, by ring, by ring⟩

theorem Mat4.applyPoint_unitZ_sub_origin (m : Mat4) :
    m.applyPoint ⟨0, 0, 1⟩ - m.applyPoint ⟨0, 0, 0⟩ =
      m.applyDir ⟨0, 0, 1⟩ := by
  rcases m with ⟨⟨ax, ay, az⟩, ⟨bx, b2, b3⟩, ⟨cx, cy, cz⟩, ⟨tx, ty, tz⟩⟩
  simp only [Mat4.applyPoint, Mat4.applyDir, Vec3.smul, Vec3.add_def,
    Vec3.sub_def, Vec3.mk.injEq]
  refine ⟨by ring, by ring, by ring⟩

theorem foldr_min_min (l : List ℚ) : ∀ a b : ℚ,
    l.foldr min (min a b) = min a (l.foldr min b) := by
  induction l with
  | nil => intro a b; simp
  | cons x l ih =>
    intro a b
    simp only [List.foldr_cons, ih]
    rw [min_left_comm]

/-- Python's `min` over a nonempty list, folded from either side. -/
theorem foldl_min_eq_foldr_min (l : List ℚ) : ∀ a : ℚ,
    l.foldl min a = l.foldr min a := by
  induction l with
  | nil => intro a; simp
  | cons x l ih =>
    intro a
    simp only [List.foldl_cons, List.foldr_cons, ih]
    rw [min_comm, foldr_min_min]

/-! ## Claim theorems -/

/-- **C1.**  For a Bone vnode with original TRS `(t, r, s)`, editbone
translation `et` and unit editbone rotation `er`, the pose transform set by
the pose pass of `create_bones` — location `er.conjugated() @ (t − et)`,
rotation `er.conjugated() @ r`, scale `s` — is the exact residual: composing
the edit-time rest transform (translation `et`, rotation `er`, no scale)
with it reproduces the original TRS on every point.  The embedding computes
in exact rationals, so the floating-point tolerance sharpens to equality. -/
theorem bone_pose_reproduces_trs (t et : Vec3) (er r : Quat) (s : Vec3)
    (her : Quat.normSq er = 1) (p : Vec3) :
    (editbone_rest et er).apply ((pose_trs t et er r s).apply p) =
      TRS.apply ⟨t, r, s⟩ p := by
  simp only [editbone_rest, pose_trs, TRS.apply, Vec3.hadamard_one,
    pose_location, pose_rotation]
  rw [Quat.rotate_add, Quat.rotate_rotate, Quat.rotate_rotate,
    ← Quat.mul_assoc', Quat.mul_conjugated_self her, Quat.idq_mul,
    Quat.rotate_idq]
  generalize Quat.rotate r (Vec3.hadamard s p) = w
  cases t; cases et; cases w
  simp only [Vec3.add_def, Vec3.sub_def, Vec3.mk.injEq]
  refine ⟨by ring, by ring, by ring⟩

theorem bone_pose_reproduces_trs_witness :
    Quat.normSq ⟨3/5, 4/5, 0, 0⟩ = 1 ∧
    (editbone_rest ⟨1, 2, 3⟩ ⟨3/5, 4/5, 0, 0⟩).apply
        ((pose_trs ⟨7, -1, 2⟩ ⟨1, 2, 3⟩ ⟨3/5, 4/5, 0, 0⟩
          ⟨1/2, 1/2, 1/2, 1/2⟩ ⟨2, 1, 1⟩).apply ⟨1, 1, 1⟩) =
      TRS.apply ⟨⟨7, -1, 2⟩, ⟨1/2, 1/2, 1/2, 1/2⟩, ⟨2, 1, 1⟩⟩ ⟨1, 1, 1⟩ :=
  ⟨by norm_num [Quat.normSq],
   bone_pose_reproduces_trs ⟨7, -1, 2⟩ ⟨1, 2, 3⟩ ⟨3/5, 4/5, 0, 0⟩
     ⟨1/2, 1/2, 1/2, 1/2⟩ ⟨2, 1, 1⟩ (by norm_num [Quat.normSq]) ⟨1, 1, 1⟩⟩

/-- **C9.**  The `normalize` helper in `export_specular`'s untextured branch
divides the channels by the luminance `0.3·r + 0.6·g + 0.1·b` only when that
luminance is nonzero, and returns the color unchanged when it is zero — so
no input ever causes a division by zero. -/
theorem normalize_divides_only_nonzero_luminance (c : Vec3) :
    (luminance c = 0 → normalize c = c) ∧
    (luminance c ≠ 0 → normalize c =
      ⟨c.x / luminance c, c.y / luminance c, c.z / luminance c⟩) := by
  constructor <;> intro h <;> simp [normalize, h]

theorem normalize_divides_only_nonzero_luminance_witness :
    (luminance ⟨1, -1, 3⟩ = 0 ∧ normalize ⟨1, -1, 3⟩ = ⟨1, -1, 3⟩) ∧
    (luminance ⟨2, 0, 0⟩ ≠ 0 ∧ normalize ⟨2, 0, 0⟩ =
      ⟨2 / luminance ⟨2, 0, 0⟩, 0 / luminance ⟨2, 0, 0⟩,
       0 / luminance ⟨2, 0, 0⟩⟩) :=
  ⟨⟨by norm_num [luminance],
    (normalize_divides_only_nonzero_luminance ⟨1, -1, 3⟩).1 (by norm_num [luminance])⟩,
   ⟨by norm_num [luminance],
    (normalize_divides_only_nonzero_luminance ⟨2, 0, 0⟩).2 (by norm_num [luminance])⟩⟩

/-- **C10.**  `calc_empty_display_size` returns the maximum of `0.001` and
the minimum, over the node and its direct children, of `0.4` times the
length of each node's local translation (the `default=1` of Python's `min`
is dead: the list always contains the node itself), and is therefore always
at least `0.001`. -/
theorem calc_empty_display_size_spec (host : Host) (store : VStore)
    (vid : Nat) :
    calc_empty_display_size host store vid =
      max 0.001
        (((store vid).children.map
            (fun v => host.vlen ((store v).trs.t) * 0.4)).foldr min
          (host.vlen ((store vid).trs.t) * 0.4)) ∧
    0.001 ≤ calc_empty_display_size host store vid := by
  constructor
  · simp only [calc_empty_display_size, py_min, List.map_cons]
    rw [foldl_min_eq_foldr_min]
    exact max_comm _ _
  · simp only [calc_empty_display_size]
    exact le_max_right _ _

/-- **C4.**  For every Bone vnode, `create_bones` places the editbone head
at `arma_mat` applied to the origin — the matrix's translation column —
its tail at `arma_mat` applied to the unit-Y point — translation plus the
linear Y column — assigns `vnode.bone_length` as the length, and aligns the
roll along `arma_mat @ (0,0,1) − head`, which is the linear part of
`arma_mat` applied to the Z axis; the parent pass changes none of this
geometry, and `create_bones` builds exactly these records for its collected
bone list. -/
theorem editbone_geometry :
    (∀ (vnode : VNode) (vid : Nat),
      (make_editbone vnode vid).head = vnode.editbone_arma_mat.transl ∧
      (make_editbone vnode vid).tail =
        vnode.editbone_arma_mat.transl + vnode.editbone_arma_mat.colY ∧
      (make_editbone vnode vid).length = vnode.bone_length ∧
      (make_editbone vnode vid).align_roll_arg =
        vnode.editbone_arma_mat.applyDir ⟨0, 0, 1⟩) ∧
    (∀ (store : VStore) (eb : EditBoneRec),
      (editbone_set_parent store eb).head = eb.head ∧
      (editbone_set_parent store eb).tail = eb.tail ∧
      (editbone_set_parent store eb).length = eb.length ∧
      (editbone_set_parent store eb).align_roll_arg = eb.align_roll_arg) ∧
    (∀ (store : VStore) (fuel arma_id : Nat) (st : ImpState),
      (create_bones store fuel arma_id st).editBones = st.editBones ++
        ((store arma_id).children.flatMap (visit_bones store fuel)).map
          (fun id => editbone_set_parent store (make_editbone (store id) id))) := by
  refine ⟨?_, ?_, ?_⟩
  · intro vnode vid
    refine ⟨?_, ?_, rfl, ?_⟩
    · simp only [make_editbone]
      exact Mat4.applyPoint_origin _
    · simp only [make_editbone]
      exact Mat4.applyPoint_unitY _
    · simp only [make_editbone]
      exact Mat4.applyPoint_unitZ_sub_origin _
  · intro store eb
    simp only [editbone_set_parent]
    repeat' split
    all_goals simp_all
  · intro store fuel arma_id st
    simp [create_bones]

/-! ### C6: the bone walk is the Bone-filtered pre-order

The `visit` closure prunes at non-Bone nodes.  The vnode builder (outside
this file's sources) only ever places Bone nodes below Bone nodes inside an
armature, which the hypothesis `hclosed` captures — scoped to the nodes of
*this* armature's subtree (`Reach store arma_id i`), so that documents
holding several armatures still satisfy it for each of their roots; under
it, pruning and filtering agree. -/

/-- Extend a descendancy chain by one child step at the far end. -/
theorem Reach.snoc {store : VStore} {a b c : Nat} (h : Reach store a b)
    (hc : c ∈ (store b).children) : Reach store a c := by
  induction h with
  | refl => exact Reach.step hc (Reach.refl _)
  | step hb _ ih => exact Reach.step hb (ih hc)

/-- Under bone-closure over the armature's subtree, no Bone hides below a
non-Bone node that sits strictly inside that subtree. -/
theorem no_bones_below {store : VStore} {rank : Nat → Nat} {arma_id : Nat}
    (hr : RankOk store rank)
    (hclosed : ∀ i, Reach store arma_id i → i ≠ arma_id →
      (store i).type ≠ VKind.Bone →
      ∀ c ∈ (store i).children, (store c).type ≠ VKind.Bone)
    {a x : Nat} (h : Reach store a x) :
    Reach store arma_id a → rank a < rank arma_id →
      (store a).type ≠ VKind.Bone → (store x).type ≠ VKind.Bone := by
  induction h with
  | refl => intro _ _ ha; exact ha
  | @step a b x hb hr' ih =>
    intro hdesc hlt ha
    have hane : a ≠ arma_id := fun hh => by rw [hh] at hlt; omega
    exact ih (Reach.snoc hdesc hb) (lt_trans (hr _ _ hb) hlt)
      (hclosed a hdesc hane ha b hb)

/-- Under subtree bone-closure and enough fuel, the pruned `visit` walk of
`create_bones` equals filtering the full pre-order for Bone nodes. -/
theorem visit_bones_eq_filter {store : VStore} {rank : Nat → Nat}
    {arma_id : Nat} (hr : RankOk store rank)
    (hclosed : ∀ i, Reach store arma_id i → i ≠ arma_id →
      (store i).type ≠ VKind.Bone →
      ∀ c ∈ (store i).children, (store c).type ≠ VKind.Bone) :
    ∀ fuel c, rank c < fuel → rank c < rank arma_id →
      Reach store arma_id c →
      visit_bones store fuel c =
        (preorder store fuel c).filter
          (fun id => decide ((store id).type = VKind.Bone)) := by
  intro fuel
  induction fuel with
  | zero => intro c h; omega
  | succ f ih =>
    intro c hf harma hdesc
    by_cases hb : (store c).type = VKind.Bone
    · simp only [visit_bones, preorder, hb, if_true, List.filter_cons,
        decide_eq_true_eq, if_pos hb, List.filter_flatMap]
      congr 1
      refine List.flatMap_congr ?_
      intro d hd
      have h1 : rank d < f := by have := hr _ _ hd; omega
      have h2 : rank d < rank arma_id := lt_trans (hr _ _ hd) harma
      exact ih d h1 h2 (Reach.snoc hdesc hd)
    · simp only [visit_bones, if_neg hb]
      refine (List.filter_eq_nil_iff.mpr ?_).symm
      intro a ha
      simp only [decide_eq_true_eq]
      exact no_bones_below hr hclosed (mem_preorder_reach ha) hdesc harma hb

/-- **C6.**  For every armature root, `create_bones` collects exactly the
Bone-kind nodes of the armature's subtrees in depth-first pre-order
(children in the order built by the hierarchy builder), and its editbone
and pose passes process exactly that list in that order.  `hclosed` is the
builder's invariant that, within this armature's subtree, Bone nodes sit
only below Bone nodes (or directly below the armature root) — stated only
over descendants of `arma_id`, so a document with several armatures
satisfies it at each root; `rank` witnesses acyclicity. -/
theorem create_bones_preorder (store : VStore)
    (rank : Nat → Nat) (arma_id fuel : Nat) (st : ImpState)
    (hr : RankOk store rank)
    (hclosed : ∀ i, Reach store arma_id i → i ≠ arma_id →
      (store i).type ≠ VKind.Bone →
      ∀ c ∈ (store i).children, (store c).type ≠ VKind.Bone)
    (hfuel : rank arma_id < fuel) :
    (store arma_id).children.flatMap (visit_bones store fuel) =
      ((store arma_id).children.flatMap (preorder store fuel)).filter
        (fun id => decide ((store id).type = VKind.Bone)) ∧
    (create_bones store fuel arma_id st).editBones = st.editBones ++
      (((store arma_id).children.flatMap (preorder store fuel)).filter
        (fun id => decide ((store id).type = VKind.Bone))).map
        (fun id => editbone_set_parent store (make_editbone (store id) id)) ∧
    (create_bones store fuel arma_id st).poseBones = st.poseBones ++
      (((store arma_id).children.flatMap (preorder store fuel)).filter
        (fun id => decide ((store id).type = VKind.Bone))).map
        (pose_bone_of store) := by
  have hmain : (store arma_id).children.flatMap (visit_bones store fuel) =
      ((store arma_id).children.flatMap (preorder store fuel)).filter
        (fun id => decide ((store id).type = VKind.Bone)) := by
    rw [List.filter_flatMap]
    refine List.flatMap_congr ?_
    intro c hc
    exact visit_bones_eq_filter hr hclosed fuel c
      (by have := hr _ _ hc; omega) (hr _ _ hc)
      (Reach.step hc (Reach.refl c))
  refine ⟨hmain, ?_, ?_⟩ <;> simp [create_bones, hmain]

/-- **C7.**  On a finite acyclic vnode forest — `rank` strictly decreasing
towards children witnesses acyclicity, `ids` lists the document's nodes,
children lists are duplicate-free, no node has two parents — `create_vnode`
always terminates from any start node (the fuel `rank start + 1 ≤ fuel`
never runs out), and its work is bounded by the document size: the visit
log (`gltf.display_current_node` ticks) repeats no node and has at most
`ids.length` entries. -/
theorem create_vnode_terminates_bounded (host : Host) (doc : GltfData)
    (store : VStore) (rank : Nat → Nat) (ids : List Nat) (fuel start : Nat)
    (hr : RankOk store rank) (hp : ParentUnique store)
    (hc : ChildrenNodup store)
    (hclosed : ∀ i c, c ∈ (store i).children → c ∈ ids)
    (hstart : start ∈ ids) (hfuel : rank start < fuel) :
    create_vnode host doc store fuel start {} ≠ none ∧
    ∀ st' e?, create_vnode host doc store fuel start {} = some (st', e?) →
      st'.visited.Nodup ∧ st'.visited.length ≤ ids.length := by
  refine ⟨create_vnode_total host doc store hr fuel start {} hfuel, ?_⟩
  intro st' e? hrun
  obtain ⟨⟨l, hv, hsub, _⟩, _, _, _⟩ :=
    create_vnode_spec host doc store fuel start {} st' e? hrun
  have hvl : st'.visited = l := by simpa using hv
  have hnodup : (preorder store fuel start).Nodup :=
    preorder_nodup hr hp hc fuel start hfuel
  have hlnodup : l.Nodup := hsub.nodup hnodup
  have hsubset : l ⊆ ids := by
    intro x hx
    exact reach_mem_ids hclosed hstart
      (mem_preorder_reach (hsub.subset hx))
  rw [hvl]
  exact ⟨hlnodup, (hlnodup.subperm hsubset).length_le⟩

/-- **C5.**  When the full walk from a DummyRoot vnode completes without an
exception, that vnode's host-object handle is set to `None`, no host object
is created for it, Bone-kind vnodes get no host object of their own either,
and its children are still all visited (the log is the full pre-order of
the subtree). -/
theorem dummy_root_not_materialized (host : Host) (doc : GltfData)
    (store : VStore) (fuel start : Nat) (st' : ImpState)
    (hdummy : (store start).type = VKind.DummyRoot)
    (hok : create_vnode host doc store fuel start {} = some (st', none)) :
    (start, none) ∈ st'.assignments ∧
    (∀ o ∈ st'.objects, o.vid ≠ start) ∧
    (∀ b, (store b).type = VKind.Bone → ∀ o ∈ st'.objects, o.vid ≠ b) ∧
    st'.visited = preorder store fuel start ∧
    (∀ x ∈ preorder store fuel start, (store x).type = VKind.Object →
      ∃ oi, (x, some oi) ∈ st'.assignments) := by
  obtain ⟨⟨l, hv, _, hfull⟩, ⟨o, ho, hot⟩, _, hcreated⟩ :=
    create_vnode_spec host doc store fuel start {} st' none hok
  have hobj : ∀ x ∈ st'.objects, (store x.vid).type = VKind.Object := by
    intro x hx
    rw [ho] at hx
    simpa using hot x (by simpa using hx)
  refine ⟨?_, ?_, ?_, ?_, hcreated rfl⟩
  · -- the DummyRoot branch records blender_object := None before the
    -- children run, and assignments only grow afterwards
    rcases fuel with _ | f
    · simp [create_vnode] at hok
    · rw [create_vnode] at hok
      simp only [hdummy] at hok
      rcases hrc : run_children (create_vnode host doc store f)
          (store start).children
          { ImpState.mk ([] ++ [start]) ([] ++ [(start, none)]) [] [] 0 [] []
            with } with _ | ⟨st₂, e₂⟩
      · rw [hrc] at hok; simp at hok
      · rw [hrc] at hok
        obtain ⟨_, _, ⟨a, ha⟩, _⟩ :=
          run_children_spec
            (fun c st st' e? hc => create_vnode_spec host doc store f c st st' e? hc)
            (store start).children _ st₂ e₂ hrc
        rcases e₂ with _ | e₂
        · simp only [Option.some.injEq, Prod.mk.injEq] at hok
          obtain ⟨rfl, _⟩ := hok
          rw [ha]
          simp
        · simp at hok
  · intro x hx h
    have := hobj x hx
    rw [h, hdummy] at this
    simp at this
  · intro b hb x hx h
    have := hobj x hx
    rw [h, hb] at this
    simp at this
  · rw [hv, hfull rfl]
    simp

/-! ### C8: mesh caching -/

/-- Calling the cache step twice with the same mesh index and key returns
the same host mesh name and leaves the state as after the first call. -/
theorem mesh_from_cache_idem (m : Int) (k : CacheKey) (st : ImpState) :
    mesh_from_cache m (some k) ((mesh_from_cache m (some k) st).1) =
      ((mesh_from_cache m (some k) st).1,
       (mesh_from_cache m (some k) st).2) := by
  unfold mesh_from_cache
  rcases hfind : st.meshCache.find? (fun e => decide (e.1 = (m, k))) with
    _ | entry
  · simp only [hfind, List.find?_append, hfind, Option.none_or]
    simp [List.find?]
  · simp [hfind]

/-- Closed form of `create_mesh_object` for a valid mesh reference with no
shape keys and no skin: the object wraps whatever the cache step yields. -/
theorem create_mesh_object_no_shapekeys_no_skin (doc : GltfData)
    (store : VStore) (vid : Nat) (vnode : VNode) (st : ImpState) (ni : Nat)
    (pynode : PyNode) (m : Int) (pymesh : PyMesh)
    (h1 : vnode.mesh_node_idx = some ni)
    (h2 : pyGet doc.nodes (Int.ofNat ni) = .ok pynode)
    (h3 : pynode.mesh = some m)
    (h4 : 0 ≤ m ∧ m < (doc.meshes.length : Int))
    (h5 : pyGet doc.meshes m = .ok pymesh)
    (h6 : pymesh.shapekey_names = [])
    (h7 : pynode.skin = none) :
    create_mesh_object doc store vid vnode st =
      ((mesh_from_cache m (some (.skinOnly none)) st).1,
       .ok { vid := vid,
             data := .meshData
               (mesh_from_cache m (some (.skinOnly none)) st).2 }) := by
  simp only [create_mesh_object, h1, h2, h3, h5, h6, h7, cache_key_of,
    h4.1, h4.2, not_true_eq_false, and_self, if_true, if_false,
    ite_false, ite_true, ne_eq, not_false_eq_true]

/-- **C8.**  `create_mesh_object` caches the created host mesh keyed by the
skin index alone when the mesh has no shape keys, by the skin index plus
the morph-weight tuple when it has shape keys but no weight animation, and
not at all when the weights are animated; under one mesh's cache, equal
keys yield the same host mesh with no second creation, while an
uncacheable mesh is created fresh on every request. -/
theorem mesh_cache_policy :
    (∀ (pymesh : PyMesh) (pynode : PyNode), pymesh.shapekey_names = [] →
      cache_key_of pymesh pynode = some (.skinOnly pynode.skin)) ∧
    (∀ (pymesh : PyMesh) (pynode : PyNode), pymesh.shapekey_names ≠ [] →
      pynode.weight_animation = false →
      cache_key_of pymesh pynode =
        some (.skinWeights pynode.skin (pynode.weights.getD []))) ∧
    (∀ (pymesh : PyMesh) (pynode : PyNode), pymesh.shapekey_names ≠ [] →
      pynode.weight_animation = true →
      cache_key_of pymesh pynode = none) ∧
    (∀ (m : Int) (k : CacheKey) (st : ImpState),
      (mesh_from_cache m (some k) ((mesh_from_cache m (some k) st).1)).2 =
        (mesh_from_cache m (some k) st).2 ∧
      (mesh_from_cache m (some k)
          ((mesh_from_cache m (some k) st).1)).1.meshesCreated =
        (mesh_from_cache m (some k) st).1.meshesCreated) ∧
    (∀ (m : Int) (st : ImpState),
      (mesh_from_cache m none ((mesh_from_cache m none st).1)).2 ≠
        (mesh_from_cache m none st).2 ∧
      (mesh_from_cache m none
          ((mesh_from_cache m none st).1)).1.meshesCreated =
        st.meshesCreated + 2) ∧
    (∀ (doc : GltfData) (store : VStore) (vidA vidB : Nat) (vA vB : VNode)
        (st : ImpState) (niA niB : Nat) (pA pB : PyNode) (m : Int)
        (pymesh : PyMesh),
      vA.mesh_node_idx = some niA →
      pyGet doc.nodes (Int.ofNat niA) = .ok pA →
      pA.mesh = some m → (0 ≤ m ∧ m < (doc.meshes.length : Int)) →
      pyGet doc.meshes m = .ok pymesh → pymesh.shapekey_names = [] →
      pA.skin = none →
      vB.mesh_node_idx = some niB →
      pyGet doc.nodes (Int.ofNat niB) = .ok pB →
      pB.mesh = some m → pB.skin = none →
      ∀ stA objA stB objB,
        create_mesh_object doc store vidA vA st = (stA, .ok objA) →
        create_mesh_object doc store vidB vB stA = (stB, .ok objB) →
        objB.data = objA.data ∧ stB.meshesCreated = stA.meshesCreated) := by
  refine ⟨?_, ?_, ?_, ?_, ?_, ?_⟩
  · intro pymesh pynode h
    simp [cache_key_of, h]
  · intro pymesh pynode h hw
    simp [cache_key_of, h, hw]
  · intro pymesh pynode h hw
    simp [cache_key_of, h, hw]
  · intro m k st
    rw [mesh_from_cache_idem]
    exact ⟨rfl, rfl⟩
  · intro m st
    constructor
    · simp [mesh_from_cache]
    · simp [mesh_from_cache]
  · intro doc store vidA vidB vA vB st niA niB pA pB m pymesh
      hA1 hA2 hA3 hA4 hA5 hA6 hA7 hB1 hB2 hB3 hB4
    intro stA objA stB objB hrA hrB
    rw [create_mesh_object_no_shapekeys_no_skin doc store vidA vA st niA
      pA m pymesh hA1 hA2 hA3 hA4 hA5 hA6 hA7] at hrA
    injection hrA with hstA hobjA
    injection hobjA with hobjA
    subst hstA
    subst hobjA
    rw [create_mesh_object_no_shapekeys_no_skin doc store vidB vB _ niB
      pB m pymesh hB1 hB2 hB3 hA4 hA5 hA6 hB4] at hrB
    rw [mesh_from_cache_idem] at hrB
    injection hrB with hstB hobjB
    injection hobjB with hobjB
    subst hstB
    subst hobjB
    exact ⟨rfl, rfl⟩

/-! ### C2: out-of-range attachment indices -/

/-- **C2 (amended).**  Only the mesh reference is range-checked: a node
whose glTF node carries an out-of-range mesh index yields an empty host
object (no mesh data) with the state untouched, and the walk goes on to
sibling nodes — claim C2's scenario (mesh 99 among 2 meshes under a dummy
root with one sibling) finishes with all three nodes visited and no
exception.  (An out-of-range *skin* index, by contrast, aborts the import —
see the counterexample theorem.) -/
theorem invalid_mesh_index_degrades_to_empty :
    (∀ (doc : GltfData) (store : VStore) (vid : Nat) (vnode : VNode)
        (st : ImpState) (ni : Nat) (pynode : PyNode) (m : Int),
      vnode.mesh_node_idx = some ni →
      pyGet doc.nodes (Int.ofNat ni) = .ok pynode →
      pynode.mesh = some m →
      ¬ (0 ≤ m ∧ m < (doc.meshes.length : Int)) →
      create_mesh_object doc store vid vnode st =
        (st, .ok { vid := vid, data := .noData })) ∧
    (create_vnode hostW docBadMesh storeMeshChild 3 0 {}).map
        (fun r => (r.1.visited, r.2)) = some ([0, 1, 2], none) := by
  constructor
  · intro doc store vid vnode st ni pynode m h1 h2 h3 h4
    simp only [create_mesh_object, h1, h2, h3, h4, if_true, ite_true,
      not_false_eq_true]
  · decide

theorem invalid_mesh_index_degrades_to_empty_witness :
    create_mesh_object docBadMesh storeMeshChild 1 (storeMeshChild 1) {} =
      ({}, .ok { vid := 1, data := .noData }) :=
  invalid_mesh_index_degrades_to_empty.1 docBadMesh storeMeshChild 1
    (storeMeshChild 1) {} 0 { mesh := some 99 } 99 (by decide) (by decide)
    (by decide) (by decide)

/-- **C2 (counterexample).**  A node with a valid mesh but an out-of-range
skin index (99 with no skins) does not degrade to an empty attachment:
`setup_skinning` subscripts `gltf.data.skins[99]`, the `IndexError`
propagates, and the walk stops before the sibling node 2 — the visit log
ends at `[0, 1]`. -/
theorem out_of_range_skin_aborts_import :
    (create_vnode hostW docBadSkin storeMeshChild 3 0 {}).map
        (fun r => (r.1.visited, r.2)) =
      some ([0, 1], some PyErr.indexError) := by
  decide

/-! ### C3: empty joint lists -/

/-- **C3 (amended).**  A skin with an empty joint list makes
`setup_skinning` raise a plain `IndexError` at `pyskin.joints[0]` (there is
no `InvalidSkinError` anywhere in the code), and `create_mesh_object` does
not catch it: the error escapes mesh-object creation instead of leaving an
unskinned mesh. -/
theorem empty_joint_list_uncaught_index_error :
    (∀ (doc : GltfData) (store : VStore) (skinIdx : Int) (pyskin : PySkin),
      pyGet doc.skins skinIdx = .ok pyskin → pyskin.joints = [] →
      setup_skinning doc store skinIdx = .error .indexError) ∧
    (∀ (doc : GltfData) (store : VStore) (vid : Nat) (vnode : VNode)
        (st : ImpState) (ni : Nat) (pynode : PyNode) (m skinIdx : Int)
        (pymesh : PyMesh),
      vnode.mesh_node_idx = some ni →
      pyGet doc.nodes (Int.ofNat ni) = .ok pynode →
      pynode.mesh = some m → (0 ≤ m ∧ m < (doc.meshes.length : Int)) →
      pyGet doc.meshes m = .ok pymesh → pymesh.shapekey_names = [] →
      pynode.skin = some skinIdx →
      setup_skinning doc store skinIdx = .error .indexError →
      create_mesh_object doc store vid vnode st =
        ((mesh_from_cache m (some (.skinOnly (some skinIdx))) st).1,
         .error .indexError)) := by
  constructor
  · intro doc store skinIdx pyskin h1 h2
    simp only [setup_skinning, h1, h2]
    rfl
  · intro doc store vid vnode st ni pynode m skinIdx pymesh
      h1 h2 h3 h4 h5 h6 h7 h8
    simp only [create_mesh_object, h1, h2, h3, h5, h6, h7, h8,
      cache_key_of, h4.1, h4.2, not_true_eq_false, and_self, if_true,
      if_false, ite_false, ite_true, ne_eq, not_false_eq_true]

theorem empty_joint_list_uncaught_index_error_witness :
    setup_skinning docEmptyJoints storeMeshChild 0 = .error .indexError ∧
    create_mesh_object docEmptyJoints storeMeshChild 1 (storeMeshChild 1) {} =
      ((mesh_from_cache 0 (some (.skinOnly (some 0))) {}).1,
       .error .indexError) :=
  ⟨empty_joint_list_uncaught_index_error.1 docEmptyJoints storeMeshChild 0
    { joints := [] } (by decide) rfl,
   empty_joint_list_uncaught_index_error.2 docEmptyJoints storeMeshChild 1
    (storeMeshChild 1) {} 0 { mesh := some 0, skin := some 0 } 0 0 {}
    (by decide) (by decide) (by decide) (by decide) (by decide) (by decide)
    (by decide) (by decide)⟩

/-- **C3 (counterexample).**  On the empty-joints scenario the exception is
not confined to the mesh's skinning: the import aborts with an uncaught
`IndexError`, the sibling node 2 is never visited, and no unskinned mesh
object is left behind (the claim's recoverable `InvalidSkinError` does not
exist in the code). -/
theorem empty_joint_list_aborts_import :
    (create_vnode hostW docEmptyJoints storeMeshChild 3 0 {}).map
        (fun r => (r.1.visited, r.2)) =
      some ([0, 1], some PyErr.indexError) := by
  decide

/-! ### Remaining witnesses -/

theorem dummy_root_not_materialized_witness :
    ∃ st', create_vnode hostW docW storeDummy 3 0 {} = some (st', none) ∧
      (0, none) ∈ st'.assignments ∧ (∀ o ∈ st'.objects, o.vid ≠ 0) ∧
      st'.visited = preorder storeDummy 3 0 ∧
      (∀ x ∈ preorder storeDummy 3 0, (storeDummy x).type = VKind.Object →
        ∃ oi, (x, some oi) ∈ st'.assignments) := by
  have hproj : (create_vnode hostW docW storeDummy 3 0 {}).map
      (fun r => r.2) = some none := by decide
  rcases hrun : create_vnode hostW docW storeDummy 3 0 {} with _ | ⟨st', e⟩
  · rw [hrun] at hproj; simp at hproj
  · rw [hrun] at hproj
    simp only [Option.map_some', Option.some.injEq] at hproj
    subst hproj
    have h := dummy_root_not_materialized hostW docW storeDummy 3 0 st'
      (by decide) hrun
    exact ⟨st', rfl, h.1, h.2.1, h.2.2.2.1, h.2.2.2.2⟩

theorem create_vnode_terminates_bounded_witness :
    create_vnode hostW docW storeDummy 2 0 {} ≠ none ∧
    ∀ st' e?, create_vnode hostW docW storeDummy 2 0 {} = some (st', e?) →
      st'.visited.Nodup ∧ st'.visited.length ≤ 3 := by
  have hr : RankOk storeDummy rankDummy := by
    intro i c hc
    match i with
    | 0 =>
      simp only [storeDummy, List.mem_cons, List.not_mem_nil, or_false] at hc
      rcases hc with rfl | rfl <;> decide
    | 1 => simp [storeDummy] at hc
    | 2 => simp [storeDummy] at hc
    | (n + 3) => simp [storeDummy] at hc
  have hp : ParentUnique storeDummy := by
    intro i j c hi hj
    have hz : ∀ k c', c' ∈ (storeDummy k).children → k = 0 := by
      intro k c' hk
      match k with
      | 0 => rfl
      | 1 => simp [storeDummy] at hk
      | 2 => simp [storeDummy] at hk
      | (n + 3) => simp [storeDummy] at hk
    rw [hz i c hi, hz j c hj]
  have hc : ChildrenNodup storeDummy := by
    intro i
    match i with
    | 0 => decide
    | 1 => simp [storeDummy]
    | 2 => simp [storeDummy]
    | (n + 3) => simp [storeDummy]
  have hclosed : ∀ i c, c ∈ (storeDummy i).children → c ∈ [0, 1, 2] := by
    intro i c hcm
    match i with
    | 0 =>
      simp only [storeDummy, List.mem_cons, List.not_mem_nil, or_false] at hcm
      rcases hcm with rfl | rfl <;> decide
    | 1 => simp [storeDummy] at hcm
    | 2 => simp [storeDummy] at hcm
    | (n + 3) => simp [storeDummy] at hcm
  exact create_vnode_terminates_bounded hostW docW storeDummy rankDummy
    [0, 1, 2] 2 0 hr hp hc hclosed (by decide) (by decide)

theorem create_bones_preorder_witness :
    ((storeTwoArma 1).children.flatMap (visit_bones storeTwoArma 2) =
      ((storeTwoArma 1).children.flatMap (preorder storeTwoArma 2)).filter
        (fun id => decide ((storeTwoArma id).type = VKind.Bone)) ∧
    (create_bones storeTwoArma 2 1 {}).editBones = [] ++
      (((storeTwoArma 1).children.flatMap (preorder storeTwoArma 2)).filter
        (fun id => decide ((storeTwoArma id).type = VKind.Bone))).map
        (fun id => editbone_set_parent storeTwoArma
          (make_editbone (storeTwoArma id) id)) ∧
    (create_bones storeTwoArma 2 1 {}).poseBones = [] ++
      (((storeTwoArma 1).children.flatMap (preorder storeTwoArma 2)).filter
        (fun id => decide ((storeTwoArma id).type = VKind.Bone))).map
        (pose_bone_of storeTwoArma)) ∧
    ((storeTwoArma 3).children.flatMap (visit_bones storeTwoArma 2) =
      ((storeTwoArma 3).children.flatMap (preorder storeTwoArma 2)).filter
        (fun id => decide ((storeTwoArma id).type = VKind.Bone)) ∧
    (create_bones storeTwoArma 2 3 {}).editBones = [] ++
      (((storeTwoArma 3).children.flatMap (preorder storeTwoArma 2)).filter
        (fun id => decide ((storeTwoArma id).type = VKind.Bone))).map
        (fun id => editbone_set_parent storeTwoArma
          (make_editbone (storeTwoArma id) id)) ∧
    (create_bones storeTwoArma 2 3 {}).poseBones = [] ++
      (((storeTwoArma 3).children.flatMap (preorder storeTwoArma 2)).filter
        (fun id => decide ((storeTwoArma id).type = VKind.Bone))).map
        (pose_bone_of storeTwoArma)) := by
  have hr : RankOk storeTwoArma rankTwoArma := by
    intro i c hc
    match i with
    | 0 =>
      simp only [storeTwoArma, List.mem_cons, List.not_mem_nil, or_false] at hc
      rcases hc with rfl | rfl <;> decide
    | 1 =>
      simp only [storeTwoArma, List.mem_cons, List.not_mem_nil, or_false] at hc
      subst hc; decide
    | 2 => simp [storeTwoArma] at hc
    | 3 =>
      simp only [storeTwoArma, List.mem_cons, List.not_mem_nil, or_false] at hc
      subst hc; decide
    | 4 => simp [storeTwoArma] at hc
    | (n + 5) => simp [storeTwoArma] at hc
  -- only the dummy root lists either armature root as a child
  have key1 : ∀ p, (1 : Nat) ∈ (storeTwoArma p).children → p = 0 := by
    intro p hp
    match p with
    | 0 => rfl
    | 1 => simp [storeTwoArma] at hp
    | 2 => simp [storeTwoArma] at hp
    | 3 => simp [storeTwoArma] at hp
    | 4 => simp [storeTwoArma] at hp
    | (n + 5) => simp [storeTwoArma] at hp
  have key3 : ∀ p, (3 : Nat) ∈ (storeTwoArma p).children → p = 0 := by
    intro p hp
    match p with
    | 0 => rfl
    | 1 => simp [storeTwoArma] at hp
    | 2 => simp [storeTwoArma] at hp
    | 3 => simp [storeTwoArma] at hp
    | 4 => simp [storeTwoArma] at hp
    | (n + 5) => simp [storeTwoArma] at hp
  -- neither armature root is a descendant of the other
  have h13 : ¬ Reach storeTwoArma 1 3 := by
    intro h
    rcases Reach.last_step h with h' | ⟨p, hp, hmem⟩
    · exact absurd h' (by decide)
    · rw [key3 p hmem] at hp
      have := Reach.rank_le hr hp
      simp [rankTwoArma] at this
  have h31 : ¬ Reach storeTwoArma 3 1 := by
    intro h
    rcases Reach.last_step h with h' | ⟨p, hp, hmem⟩
    · exact absurd h' (by decide)
    · rw [key1 p hmem] at hp
      have := Reach.rank_le hr hp
      simp [rankTwoArma] at this
  have hclosed1 : ∀ i, Reach storeTwoArma 1 i → i ≠ 1 →
      (storeTwoArma i).type ≠ VKind.Bone →
      ∀ c ∈ (storeTwoArma i).children, (storeTwoArma c).type ≠ VKind.Bone := by
    intro i hreach hne hnb c hcm
    match i with
    | 0 =>
      simp only [storeTwoArma, List.mem_cons, List.not_mem_nil, or_false] at hcm
      rcases hcm with rfl | rfl <;> decide
    | 1 => exact absurd rfl hne
    | 2 => simp [storeTwoArma] at hnb
    | 3 => exact absurd hreach h13
    | 4 => simp [storeTwoArma] at hnb
    | (n + 5) => simp [storeTwoArma] at hcm
  have hclosed3 : ∀ i, Reach storeTwoArma 3 i → i ≠ 3 →
      (storeTwoArma i).type ≠ VKind.Bone →
      ∀ c ∈ (storeTwoArma i).children, (storeTwoArma c).type ≠ VKind.Bone := by
    intro i hreach hne hnb c hcm
    match i with
    | 0 =>
      simp only [storeTwoArma, List.mem_cons, List.not_mem_nil, or_false] at hcm
      rcases hcm with rfl | rfl <;> decide
    | 1 => exact absurd hreach h31
    | 2 => simp [storeTwoArma] at hnb
    | 3 => exact absurd rfl hne
    | 4 => simp [storeTwoArma] at hnb
    | (n + 5) => simp [storeTwoArma] at hcm
  exact ⟨create_bones_preorder storeTwoArma rankTwoArma 1 2 {} hr hclosed1
      (by decide),
    create_bones_preorder storeTwoArma rankTwoArma 3 2 {} hr hclosed3
      (by decide)⟩

theorem mesh_cache_policy_witness :
    cache_key_of {} { skin := some 4 } =
      some (.skinOnly (some 4)) ∧
    cache_key_of { shapekey_names := [some 0] } { weights := some [1, 2] } =
      some (.skinWeights none [1, 2]) ∧
    cache_key_of { shapekey_names := [some 0] } { weight_animation := true } =
      none ∧
    ∀ stA objA stB objB,
      create_mesh_object docOneMesh storeMeshChild 1 (storeMeshChild 1) {} =
        (stA, .ok objA) →
      create_mesh_object docOneMesh storeMeshChild 2 (storeMeshChild 1) stA =
        (stB, .ok objB) →
      objB.data = objA.data ∧ stB.meshesCreated = stA.meshesCreated := by
  refine ⟨?_, ?_, ?_, ?_⟩
  · exact mesh_cache_policy.1 {} { skin := some 4 } rfl
  · exact mesh_cache_policy.2.1 { shapekey_names := [some 0] }
      { weights := some [1, 2] } (by decide) rfl
  · exact mesh_cache_policy.2.2.1 { shapekey_names := [some 0] }
      { weight_animation := true } (by decide) rfl
  · intro stA objA stB objB hrA hrB
    exact mesh_cache_policy.2.2.2.2.2 docOneMesh storeMeshChild 1 2
      (storeMeshChild 1) (storeMeshChild 1) {} 0 0 { mesh := some 0 }
      { mesh := some 0 } 0 {} (by decide) (by decide) (by decide) (by decide)
      (by decide) (by decide) (by decide) (by decide) (by decide) (by decide)
      (by decide) stA objA stB objB hrA hrB

end GltfCore
